import Mathlib

set_option maxRecDepth 4000

/-!
# Verification of the EXT_mesh_bmesh codec

Shallow embedding of the EXT_mesh_bmesh topology codec of the VRM add-on:

* `src/io_scene_vrm/exporter/ext_mesh_bmesh_exporter.py`
  (`analyze_mesh_topology`, the buffer/accessor layer,
  `create_sparse_accessor`, `_create_optimized_accessor`,
  `_create_dense_accessor`, `export_bmesh_topology`, `export_mesh`), and
* `src/io_scene_vrm/importer/ext_mesh_bmesh_importer.py`
  (`read_buffer_view`, `read_accessor_data`, `read_sparse_accessor`,
  `reconstruct_bmesh_topology`, `import_primitive`).

Python machine-level conventions used throughout the embedding:

* Byte buffers are `List Nat` with every element < 256 by construction.
* Python `int` values are `Int`; Python `float` values are represented by
  their IEEE-754 binary32 bit pattern (a `Nat` < 2^32).  All floats in this
  codec originate from, or are destined for, packed little-endian `float32`
  wire data (`struct.pack/unpack "<f"`), for which the bit pattern is the
  exact observable value.
* Python exceptions are modelled by the `Except PyErr` monad; the specific
  exception classes that the source can raise are the constructors of
  `PyErr`.
-/

namespace ExtMeshBmesh

/-- The exceptions the modelled Python code can raise.
`invalidAccessorIndex`, `invalidBufferViewIndex`, `invalidBufferIndex` are
the `ValueError("Invalid ... index: %d")` raises; `unsupportedComponentType`
and `unsupportedAccessorType` are the `ValueError("Unsupported ...")`
raises; `keyError` is a missing-dict-key access; `structError` is
`struct.error` (bad pack argument or out-of-range `unpack_from`);
`typeError` covers `TypeError` (e.g. `int()` / `float()` / `len()` /
comparison on an unsuitable value); `indexError` is a list subscript
out of range. -/
inductive PyErr where
  | invalidAccessorIndex (i : Nat)
  | invalidBufferViewIndex (i : Nat)
  | invalidBufferIndex (i : Nat)
  | unsupportedComponentType (t : Nat)
  | unsupportedAccessorType (s : String)
  | keyError
  | structError
  | typeError
  | indexError
  deriving DecidableEq

/-- A Python value as it flows through the codec's value arrays:
an `int`, a `float` (by binary32 bit pattern), a pair tuple
(`polygon.edge_keys` entries are `(v1, v2)` tuples), or a list. -/
inductive PVal where
  | int (n : Int)
  | flt (bits : Nat)
  | pair (a b : Nat)
  | list (xs : List PVal)

/-- A 3-vector of binary32 bit patterns (`mathutils.Vector` contents). -/
abbrev Vec3 : Type := Nat × Nat × Nat

/-! ## IEEE-754 binary32 helpers (bit-pattern level) -/

/-- Little-endian 4-byte encoding of a `Nat` (the payload of
`struct.pack("<I", n)` and `struct.pack("<f", x)` for `x` with bit
pattern `n`). -/
def le32 (n : Nat) : List Nat :=
  [n % 256, n / 256 % 256, n / 65536 % 256, n / 16777216 % 256]

/-- Little-endian decoding of a byte list. -/
def leNat (bs : List Nat) : Nat :=
  bs.foldr (fun b acc => b + 256 * acc) 0

/-- Structurally recursive bit length: `bitlenAux fuel n` is the number
of binary digits of `n`, exact whenever `n ≤ fuel`. -/
def bitlenAux : Nat → Nat → Nat
  | 0, _ => 0
  | fuel + 1, n => if n = 0 then 0 else bitlenAux fuel (n / 2) + 1

/-- The number of binary digits of `n` (0 for 0). -/
def bitlen (n : Nat) : Nat := bitlenAux n n

/-- Bits of a positive integer magnitude rounded to binary32
(round-to-nearest, ties-to-even), sign bit not included. -/
def f32ofPos (m : Nat) : Nat :=
  let k := bitlen m
  if k ≤ 24 then
    ((127 + (k - 1)) * 2 ^ 23) + m * 2 ^ (24 - k) - 2 ^ 23
  else
    let shift := k - 24
    let q := m / 2 ^ shift
    let r := m % 2 ^ shift
    let half := 2 ^ (shift - 1)
    let q1 := if half < r ∨ (r = half ∧ q % 2 = 1) then q + 1 else q
    let q2 := if q1 = 2 ^ 24 then 2 ^ 23 else q1
    let e2 := if q1 = 2 ^ 24 then k else k - 1
    if 255 ≤ 127 + e2 then 0x7F800000
    else ((127 + e2) * 2 ^ 23) + q2 - 2 ^ 23

/-- Bit pattern of `float(n)` narrowed to binary32 (what
`struct.pack("<f", n)` stores for a Python `int` `n` small enough to be
exact in binary64, which covers every value this codec can produce). -/
def f32ofInt (n : Int) : Nat :=
  if n = 0 then 0
  else if 0 < n then f32ofPos n.toNat
  else 0x80000000 + f32ofPos (-n).toNat

/-- Exponent field of a binary32 pattern. -/
def f32exp (bits : Nat) : Nat := bits / 2 ^ 23 % 256

/-- Fraction field of a binary32 pattern. -/
def f32frac (bits : Nat) : Nat := bits % 2 ^ 23

/-- Sign bit of a binary32 pattern. -/
def f32sign (bits : Nat) : Nat := bits / 2 ^ 31 % 2

/-- Model of `math.isnan` on a binary32 pattern. -/
def f32IsNaN (bits : Nat) : Bool := f32exp bits = 255 ∧ f32frac bits ≠ 0

/-- Model of `math.isinf` on a binary32 pattern. -/
def f32IsInf (bits : Nat) : Bool := f32exp bits = 255 ∧ f32frac bits = 0

/-- Exact rational value of a finite binary32 pattern (`none` for NaN and
infinities). -/
def f32toQ (bits : Nat) : Option ℚ :=
  if f32exp bits = 255 then none
  else
    let mag : ℚ :=
      if f32exp bits = 0 then (f32frac bits : ℚ) / 2 ^ 149
      else ((2 ^ 23 + f32frac bits : Nat) : ℚ) * (2 : ℚ) ^ ((f32exp bits : ℤ) - 150)
    some (if f32sign bits = 1 then -mag else mag)

/-- Truncation toward zero of a rational (Python `int(float)`). -/
def truncQ (q : ℚ) : Int :=
  if q < 0 then -(Int.ofNat (q.num.natAbs / q.den)) else Int.ofNat (q.num.natAbs / q.den)

/-! ## Python value operations -/

namespace PVal

/-- Python `==` between a codec value and the integer `0` /
zero-vector defaults used by the sparse-accessor builder
(`value != default_value` with `default_value = 0` or `[0]*components`).
A float equals `0` exactly when its value is `±0.0`; a tuple never equals
a list or an int. -/
def eqZeroInt : PVal → Bool
  | .int n => n = 0
  | .flt bits => bits = 0 ∨ bits = 0x80000000
  | .pair _ _ => false
  | .list _ => false

/-- Python `==` against the list `[0] * k`. -/
def eqZeroList (v : PVal) (k : Nat) : Bool :=
  match v with
  | .list xs => xs.length = k && xs.all eqZeroInt
  | _ => false

/-- Python `int(value)`: identity on ints, truncation on finite floats
(`ValueError`/`OverflowError` on NaN/inf, modelled as `typeError`),
`TypeError` on tuples and lists. -/
def asInt : PVal → Except PyErr Int
  | .int n => .ok n
  | .flt bits =>
      match f32toQ bits with
      | some q => .ok (truncQ q)
      | none => .error .typeError
  | .pair _ _ => .error .typeError
  | .list _ => .error .typeError

/-- Python `value < c` for a natural bound `c` (used by
`read_sparse_accessor`'s `index < count`).  Ints and finite floats compare
numerically, NaN compares false, `-inf` true, `+inf` false; comparing a
tuple or list against an int raises `TypeError`. -/
def ltNat (v : PVal) (c : Nat) : Except PyErr Bool :=
  match v with
  | .int n => .ok (n < (c : Int))
  | .flt bits =>
      match f32toQ bits with
      | some q => .ok (q < (c : ℚ))
      | none => .ok (f32IsInf bits ∧ f32sign bits = 1)
  | .pair _ _ => .error .typeError
  | .list _ => .error .typeError

/-- Python `len(value)`: defined for lists (and 2-tuples), `TypeError`
otherwise. -/
def pyLen : PVal → Except PyErr Nat
  | .list xs => .ok xs.length
  | .pair _ _ => .ok 2
  | _ => .error .typeError

end PVal

/-! ## glTF wire structures -/

/-- A glTF buffer view (`{"buffer": 0, "byteOffset": o, "byteLength": n}`). -/
structure BufferView where
  buffer : Nat
  byteOffset : Nat
  byteLength : Nat
  deriving DecidableEq

/-- The `sparse.indices` sub-record
(`{"bufferView": b, "componentType": 5125}`). -/
structure SparseIndices where
  bufferView : Nat
  componentType : Nat
  deriving DecidableEq

/-- The `sparse.values` sub-record (`{"bufferView": b}`). -/
structure SparseValues where
  bufferView : Nat
  deriving DecidableEq

/-- The `sparse` descriptor of an accessor. -/
structure SparseInfo where
  count : Nat
  indices : SparseIndices
  values : SparseValues
  deriving DecidableEq

/-- A glTF accessor record.  `bufferView` is optional because the sparse
accessors this exporter creates omit the key (accessing it then raises
`KeyError`).  `byteOffset` models `accessor.get("byteOffset", 0)`; this
exporter never writes the key, so the default 0 is used.  `min`/`max` and
`sparse` are optional keys. -/
structure Accessor where
  bufferView : Option Nat
  componentType : Nat
  count : Nat
  type : String
  byteOffset : Nat := 0
  min : Option (List PVal) := none
  max : Option (List PVal) := none
  sparse : Option SparseInfo := none

/-- The exporter's mutable glTF state: `self.buffers[0]`,
`self.buffer_views` and `self.accessors` (the latter two alias
`gltf_data["bufferViews"]` / `gltf_data["accessors"]`). -/
structure GState where
  buffer0 : List Nat
  bufferViews : List BufferView
  accessors : List Accessor

/-- A fresh exporter state (`ExtMeshBmeshExporter()` with no glTF data). -/
def emptyState : GState := ⟨[], [], []⟩

/-! ## Buffer/accessor creation (exporter) -/

/-- Model of `create_buffer_view`: pad `buffers[0]` with zero bytes to a 4-byte
boundary, append the data, and record `{buffer: 0, byteOffset, byteLength}`;
returns the new view's index. -/
def create_buffer_view (st : GState) (data : List Nat) : GState × Nat :=
  let pad := (4 - st.buffer0.length % 4) % 4
  let buf := st.buffer0 ++ List.replicate pad 0
  let idx := st.bufferViews.length
  ({ st with
      buffer0 := buf ++ data
      bufferViews := st.bufferViews ++ [⟨0, buf.length, data.length⟩] },
   idx)

/-- Model of `create_accessor`: record a typed accessor descriptor and return its
index. -/
def create_accessor (st : GState) (bufferViewIndex : Nat) (componentType : Nat)
    (count : Nat) (accessorType : String)
    (minVal maxVal : Option (List PVal) := none) : GState × Nat :=
  let idx := st.accessors.length
  ({ st with
      accessors := st.accessors ++
        [{ bufferView := some bufferViewIndex, componentType := componentType,
           count := count, type := accessorType,
           min := minVal, max := maxVal }] },
   idx)

/-- Model of `pack_vector3_array`: `struct.pack("<fff", v.x, v.y, v.z)` for each
vector, i.e. the little-endian bytes of the three binary32 patterns. -/
def pack_vector3_array (vectors : List Vec3) : List Nat :=
  vectors.foldr (fun v acc => le32 v.1 ++ le32 v.2.1 ++ le32 v.2.2 ++ acc) []

/-- Model of `struct.pack("<I", value)`: accepts only a Python `int` in
`[0, 2^32)`; everything else (float, tuple, list, out of range) raises
`struct.error`. -/
def packU32 : PVal → Except PyErr (List Nat)
  | .int n => if 0 ≤ n ∧ n < 2 ^ 32 then .ok (le32 n.toNat) else .error .structError
  | _ => .error .structError

/-- Model of `pack_uint_array`: concatenation of `struct.pack("<I", v)` over the
values. -/
def pack_uint_array (values : List PVal) : Except PyErr (List Nat) :=
  match values with
  | [] => .ok []
  | v :: rest => do
      let b ← packU32 v
      let bs ← pack_uint_array rest
      .ok (b ++ bs)

/-- Model of `{"VEC2": 2, "VEC3": 3, "VEC4": 4}.get(accessor_type, 1)`. -/
def componentsOf (accessorType : String) : Nat :=
  if accessorType = "VEC2" then 2
  else if accessorType = "VEC3" then 3
  else if accessorType = "VEC4" then 4
  else 1

/-- Model of `float(value)` narrowed to its binary32 pattern, as stored by
`struct.pack("<f", float(value))`: a float keeps its pattern, an int is
converted, tuples/lists raise `TypeError`. -/
def pvalF32Bits : PVal → Except PyErr Nat
  | .flt bits => .ok bits
  | .int n => .ok (f32ofInt n)
  | .pair _ _ => .error .typeError
  | .list _ => .error .typeError

/-- Model of `struct.pack("<" + "f" * components, *value)` for a list `value`:
the arity must match exactly, each component packed as binary32. -/
def packF32List (components : Nat) (xs : List PVal) : Except PyErr (List Nat) :=
  if xs.length = components then
    match xs with
    | [] => .ok []
    | x :: rest => do
        let b ← pvalF32Bits x
        let bs ← packF32List (components - 1) rest
        .ok (le32 b ++ bs)
  else .error .structError

/-- One element of the float-values packing loop shared by
`create_sparse_accessor` and `_create_dense_accessor`:
`if isinstance(value, list): pack("<f"*components, *value)
else: pack("<f", float(value))`.  (A tuple is not a `list` in Python, so
it takes the `float(value)` branch and raises `TypeError`.) -/
def packF32Value (components : Nat) (v : PVal) : Except PyErr (List Nat) :=
  match v with
  | .list xs => packF32List components xs
  | other => do
      let b ← pvalF32Bits other
      .ok (le32 b)

/-- The float-values packing loop over a value array. -/
def packF32Values (components : Nat) (values : List PVal) :
    Except PyErr (List Nat) :=
  match values with
  | [] => .ok []
  | v :: rest => do
      let b ← packF32Value components v
      let bs ← packF32Values components rest
      .ok (b ++ bs)

/-- Model of `value != default_value` where
`default_value = 0 if accessor_type == "SCALAR" else [0] * components`. -/
def isNonDefault (accessorType : String) (components : Nat) (v : PVal) : Bool :=
  if accessorType = "SCALAR" then ! v.eqZeroInt
  else ! v.eqZeroList components

/-- Model of `create_sparse_accessor`: partition values into default/non-default;
with no non-default values emit a single-element dense accessor; otherwise
pack the override indices (uint32) and values (uint32 for `SCALAR`,
binary32 otherwise) into two buffer views and record an accessor whose
`sparse` descriptor references them (and which has no `bufferView` key). -/
def create_sparse_accessor (st : GState) (values : List PVal)
    (componentType : Nat) (accessorType : String) :
    Except PyErr (GState × Nat) := do
  let count := values.length
  let components := componentsOf accessorType
  let nonDefault := (values.enum.filter fun vi =>
    isNonDefault accessorType components vi.2)
  let nonDefaultIndices := nonDefault.map (fun vi => PVal.int vi.1)
  let nonDefaultValues := nonDefault.map (·.2)
  if nonDefaultValues.length = 0 then
    let data :=
      if accessorType = "SCALAR" then le32 0
      else (List.replicate components (le32 0)).flatten
    let (st1, bv) := create_buffer_view st data
    .ok (create_accessor st1 bv componentType 1 accessorType)
  else
    let indicesData ← pack_uint_array nonDefaultIndices
    let (st1, indicesBv) := create_buffer_view st indicesData
    let valuesData ←
      if accessorType = "SCALAR" then pack_uint_array nonDefaultValues
      else packF32Values components nonDefaultValues
    let (st2, valuesBv) := create_buffer_view st1 valuesData
    let idx := st2.accessors.length
    .ok ({ st2 with accessors := st2.accessors ++
            [{ bufferView := none, componentType := componentType,
               count := count, type := accessorType,
               sparse := some ⟨nonDefaultValues.length,
                               ⟨indicesBv, 5125⟩, ⟨valuesBv⟩⟩ }] },
         idx)

/-- Python `min(values)` / `max(values)` as used on the dense `SCALAR`
path.  On that path `pack_uint_array` has already succeeded, so the values
are all ints; we model exactly that case and raise `TypeError` otherwise
(as Python does when comparing an int against a tuple or list). -/
def pyMinInt (values : List PVal) : Except PyErr PVal :=
  match values with
  | [] => .error .typeError
  | v :: rest =>
      rest.foldlM
        (fun acc x =>
          match acc, x with
          | .int a, .int b => .ok (.int (Min.min a b))
          | _, _ => .error .typeError)
        v

/-- See `pyMinInt`. -/
def pyMaxInt (values : List PVal) : Except PyErr PVal :=
  match values with
  | [] => .error .typeError
  | v :: rest =>
      rest.foldlM
        (fun acc x =>
          match acc, x with
          | .int a, .int b => .ok (.int (Max.max a b))
          | _, _ => .error .typeError)
        v

/-- Effectful map in the `Except` monad, stopping at the first error (the
Python `for` loops that build value lists element by element). -/
def mapME {α β : Type} (f : α → Except PyErr β) : List α → Except PyErr (List β)
  | [] => .ok []
  | x :: xs => do
      let y ← f x
      let ys ← mapME f xs
      .ok (y :: ys)

/-- The min/max computation of `_create_dense_accessor`: `None` for empty
values; `([min(values)], [max(values)])` for `SCALAR`; for vector shapes,
component-wise min/max over the values that are lists of sufficient length
(`None` when no value qualifies). -/
def denseMinMax (values : List PVal) (accessorType : String) :
    Except PyErr (Option (List PVal) × Option (List PVal)) := do
  if values.isEmpty then .ok (none, none)
  else if accessorType = "SCALAR" then do
    let mn ← pyMinInt values
    let mx ← pyMaxInt values
    .ok (some [mn], some [mx])
  else if accessorType = "VEC3" ∨ accessorType = "VEC2" ∨ accessorType = "VEC4" then do
    let components := componentsOf accessorType
    let filtered := values.filterMap fun v =>
      match v with
      | .list xs => if components ≤ xs.length then some xs else none
      | _ => none
    match filtered with
    | [] => .ok (none, none)
    | _ => do
        -- transposed = list(zip(*filtered_values)): component k of the zip
        -- is the k-th entry of each list, truncated to the shortest list
        -- (every list has length ≥ components, so k < components is safe).
        let width := (filtered.map List.length).foldl Min.min (2 ^ 64)
        let mins ← mapME (fun k =>
          pyMinInt (filtered.map fun xs => xs.getD k (.int 0))) (List.range width)
        let maxs ← mapME (fun k =>
          pyMaxInt (filtered.map fun xs => xs.getD k (.int 0))) (List.range width)
        .ok (some mins, some maxs)
  else .ok (none, none)

/-- Model of `_create_dense_accessor`: pack the data (`uint32` for `SCALAR`,
binary32 components otherwise), create a buffer view, compute min/max, and
record a dense accessor. -/
def create_dense_accessor (st : GState) (values : List PVal)
    (componentType : Nat) (accessorType : String) :
    Except PyErr (GState × Nat) := do
  let count := values.length
  let data ←
    if accessorType = "SCALAR" then pack_uint_array values
    else packF32Values (componentsOf accessorType) values
  let (st1, bv) := create_buffer_view st data
  let (mn, mx) ← denseMinMax values accessorType
  .ok (create_accessor st1 bv componentType count accessorType mn mx)

/-- Model of `non_default_count` of `_create_optimized_accessor`. -/
def nonDefaultCount (values : List PVal) (accessorType : String) : Nat :=
  (values.filter (isNonDefault accessorType (componentsOf accessorType))).length

/-- Model of `_create_optimized_accessor`: for arrays of more than 100 elements
whose non-default fraction is below 0.3, dispatch to
`create_sparse_accessor`; otherwise dispatch to `_create_dense_accessor`.
The source compares `non_default_count / count < 0.3` with Python float
division; the exact rational comparison `10 * non_default_count < 3 *
count` coincides with it for every array a Python process can hold
(divergence would need counts around 2^53). -/
def create_optimized_accessor (st : GState) (values : List PVal)
    (componentType : Nat) (accessorType : String) :
    Except PyErr (GState × Nat) :=
  let count := values.length
  if 100 < count ∧ 10 * nonDefaultCount values accessorType < 3 * count then
    create_sparse_accessor st values componentType accessorType
  else
    create_dense_accessor st values componentType accessorType

/-! ## The Blender mesh snapshot

The input data model: the parts of Blender's `Mesh` the codec reads.
Blender guarantees consistency invariants between these fields (loop
blocks are contiguous, `edge_keys` are the sorted consecutive vertex
pairs, `loop.edge_index` addresses the mesh edge joining consecutive loop
vertices); the theorems that need them take them as explicit hypotheses
(`blocksOk`, `keysOk`, `edgeKeysNodup`). -/

/-- Model of `mesh.vertices[i]`: a position vector. -/
structure BVertex where
  co : Vec3
  deriving DecidableEq

/-- Model of `mesh.edges[i]`: a vertex pair and the edge crease scalar
(`getattr(edge, 'crease', 0.0)`; 0 models both a zero crease and an API
without the attribute). -/
structure BEdge where
  v1 : Nat
  v2 : Nat
  crease : Nat := 0
  deriving DecidableEq

/-- Model of `mesh.loops[i]`: the vertex it starts from and the edge it runs
along. -/
structure BLoop where
  vertex_index : Nat
  edge_index : Nat
  deriving DecidableEq

/-- Model of `mesh.polygons[i]`: a contiguous loop block, the derived
`edge_keys` list, and the face normal. -/
structure BPolygon where
  loop_start : Nat
  loop_total : Nat
  edge_keys : List (Nat × Nat)
  normal : Vec3
  deriving DecidableEq

/-- The mesh snapshot read by `analyze_mesh_topology`.  Meshes with UV or
vertex-color layers are outside the embedded domain (`mesh.uv_layers` and
`mesh.vertex_colors` empty), so `_extract_loop_attributes` adds nothing. -/
structure BMesh where
  vertices : List BVertex
  edges : List BEdge
  polygons : List BPolygon
  loops : List BLoop
  deriving DecidableEq

/-! ## Extracted topology records (`bmesh_data`) -/

/-- A vertex record of `bmesh_data["vertices"]`. -/
structure VertRec where
  id : Nat
  position : Vec3
  edges : List Nat
  deriving DecidableEq

/-- An edge record of `bmesh_data["edges"]`. -/
structure EdgeRec where
  id : Nat
  v1 : Nat
  v2 : Nat
  faces : List Nat
  deriving DecidableEq

/-- A loop record of `bmesh_data["loops"]`. -/
structure LoopRec where
  id : Nat
  vertex : Nat
  edge : Nat
  face : Nat
  next : Nat
  prev : Nat
  radial_next : Nat
  radial_prev : Nat
  deriving DecidableEq

/-- A face record of `bmesh_data["faces"]`.  `edges` holds
`polygon.edge_keys`, a list of `(v1, v2)` vertex-pair tuples — not edge
ids. -/
structure FaceRec where
  id : Nat
  vertices : List Nat
  edges : List (Nat × Nat)
  loops : List Nat
  normal : Vec3
  deriving DecidableEq

/-- The whole `bmesh_data` record.  `edges_crease` is the optional
`"edges_crease"` key; the source computes `vertices_crease` and
`faces_holes` too but its `has_vertex_creases` flag is constantly `False`
and every `hole_value` is the constant 0, so those keys are never
attached. -/
structure BmeshData where
  vertices : List VertRec
  edges : List EdgeRec
  loops : List LoopRec
  faces : List FaceRec
  edges_crease : Option (List Nat) := none
  deriving DecidableEq

/-! ## `analyze_mesh_topology` -/

/-- Vertex extraction: one record per `mesh.vertices` entry, position
copied, `edges` empty. -/
def mkVertices (vs : List BVertex) : List VertRec :=
  vs.enum.map fun iv => ⟨iv.1, iv.2.co, []⟩

/-- Edge extraction: one record per `mesh.edges` entry, vertex pair as
given, `faces` empty.  (The `edge_map` the source also builds here is
shadowed by `_build_adjacency`'s own map and never read.) -/
def mkEdges (es : List BEdge) : List EdgeRec :=
  es.enum.map fun ie => ⟨ie.1, ie.2.v1, ie.2.v2, []⟩

/-- A placeholder mesh loop for out-of-range `mesh.loops` access; under
the Blender block invariants (`blocksOk`) it is never selected. -/
def dummyBLoop : BLoop := ⟨0, 0⟩

/-- The loop records of one polygon.  `base` is the running global
`loop_index`; `next`/`prev` use `polygon.loop_start` plus index arithmetic
modulo `loop_total` (Python `%` on `-1` yields `total - 1`, modelled by
`(j + total - 1) % total`).  `radial_next`/`radial_prev` start
self-referential. -/
def faceLoopRecs (mloops : List BLoop) (p : BPolygon) (fidx base : Nat) :
    List LoopRec :=
  (List.range p.loop_total).map fun j =>
    let ml := mloops.getD (p.loop_start + j) dummyBLoop
    { id := base + j, vertex := ml.vertex_index, edge := ml.edge_index,
      face := fidx,
      next := p.loop_start + (j + 1) % p.loop_total,
      prev := p.loop_start + (j + p.loop_total - 1) % p.loop_total,
      radial_next := base + j, radial_prev := base + j }

/-- Loop extraction over all polygons, threading the face index and the
global loop counter. -/
def loopsOfPolys (mloops : List BLoop) (ps : List BPolygon) (fidx base : Nat) :
    List LoopRec :=
  match ps with
  | [] => []
  | p :: rest =>
      faceLoopRecs mloops p fidx base ++
        loopsOfPolys mloops rest (fidx + 1) (base + p.loop_total)

/-- The face record of one polygon: the vertex indices of its loops, the
polygon's `edge_keys` (vertex-pair tuples), the global loop ids, and the
polygon normal. -/
def faceRecOf (mloops : List BLoop) (p : BPolygon) (fidx base : Nat) :
    FaceRec :=
  { id := fidx,
    vertices := (List.range p.loop_total).map fun j =>
      (mloops.getD (p.loop_start + j) dummyBLoop).vertex_index,
    edges := p.edge_keys,
    loops := (List.range p.loop_total).map fun j => base + j,
    normal := p.normal }

/-- Face extraction over all polygons. -/
def facesOfPolys (mloops : List BLoop) (ps : List BPolygon) (fidx base : Nat) :
    List FaceRec :=
  match ps with
  | [] => []
  | p :: rest =>
      faceRecOf mloops p fidx base ::
        facesOfPolys mloops rest (fidx + 1) (base + p.loop_total)

/-- Model of `tuple(sorted([v1, v2]))` — the deduplication key of an edge. -/
def sortPair (a b : Nat) : Nat × Nat :=
  if a ≤ b then (a, b) else (b, a)

/-- The key of an edge record. -/
def edgeKeyOf (e : EdgeRec) : Nat × Nat := sortPair e.v1 e.v2

/-- Model of `_build_adjacency`'s `edge_map` lookup: the id of the edge whose
sorted vertex pair equals `key`.  A Python dict keeps the last writer, so
with duplicate keys the edge of the highest index wins. -/
def edgeMapLookup (edges : List EdgeRec) (key : Nat × Nat) : Option Nat :=
  ((edges.filter fun e => edgeKeyOf e = key).map (·.id)).getLast?

/-- Model of `vertex["edges"]` after `_build_adjacency`: for each edge in order,
the edge id is appended to both endpoint vertices (twice to the same
vertex for a degenerate self-edge). -/
def vertexEdgesFor (edges : List EdgeRec) (vid : Nat) : List Nat :=
  edges.flatMap fun e =>
    (if e.v1 = vid then [e.id] else []) ++ (if e.v2 = vid then [e.id] else [])

/-- Model of `edge["faces"]` after `_build_adjacency`: for each face in order, for
each of its `edge_keys` in order, the face id is appended to the edge the
map resolves the key to (keys absent from the map are skipped). -/
def facesForEdge (faces : List FaceRec) (edges : List EdgeRec) (i : Nat) :
    List Nat :=
  faces.flatMap fun f =>
    (f.edges.filter fun key => edgeMapLookup edges key = some i).map fun _ => f.id

/-- Model of `_build_adjacency`. -/
def build_adjacency (bm : BmeshData) : BmeshData :=
  { bm with
      vertices := bm.vertices.map fun v =>
        { v with edges := vertexEdgesFor bm.edges v.id },
      edges := bm.edges.map fun e =>
        { e with faces := facesForEdge bm.faces bm.edges e.id } }

/-- Python `crease_value > 0.0` on a binary32 pattern: true for positive
finite values and `+inf`, false for zeros, negatives and NaN. -/
def f32GtZero (bits : Nat) : Bool := 0 < bits ∧ bits ≤ 0x7F800000

/-- Model of `_extract_subdivision_data`: attach `"edges_crease"` when some edge
crease is positive.  (`vertices_crease` and `faces_holes` are computed by
the source but never attached — `has_vertex_creases` is constantly
`False` and every `hole_value` is 0.) -/
def extract_subdivision_data (bm : BmeshData) (mesh : BMesh) : BmeshData :=
  let creases := mesh.edges.map (·.crease)
  if creases.any f32GtZero then { bm with edges_crease := some creases }
  else bm

/-- The radial cycle of an edge: the ids of the loops whose `edge` field
equals the edge's id, in discovery (face) order. -/
def cycleOf (loops : List LoopRec) (e : Nat) : List Nat :=
  (loops.filter fun l2 => l2.edge = e).map (·.id)

/-- Link one loop into the radial cycle of its edge: its `radial_next` /
`radial_prev` become the cycle's neighbours of its own position
(self-referential when the cycle is a singleton). -/
def radialize (loops : List LoopRec) (l : LoopRec) : LoopRec :=
  let cycle := cycleOf loops l.edge
  let k := cycle.length
  let j := cycle.indexOf l.id
  { l with
      radial_next := cycle.getD ((j + 1) % k) l.id,
      radial_prev := cycle.getD ((j + k - 1) % k) l.id }

/-- Modelled from the spec: `_calculate_radial_loops` is called by
`analyze_mesh_topology` (exporter line 105) but its definition is not
among the provided source files; only its call site and the loop fields it
fills are.  Spec §4.2 step 5: "for every Edge, gather the set of Loops
whose `edge` equals that Edge's id (one per incident face, in face order);
order them (by face id, or consistently by first discovery) into a single
cycle and assign each loop's `radial_next`/`radial_prev` to its neighbors
in that cycle (self-referential if the edge has only one incident loop — a
boundary edge)." -/
def calculate_radial_loops (bm : BmeshData) : BmeshData :=
  { bm with loops := bm.loops.map (radialize bm.loops) }

/-- A placeholder loop record for out-of-range lookups. -/
def dummyLoopRec : LoopRec := ⟨0, 0, 0, 0, 0, 0, 0, 0⟩

/-- Following `radial_next` one step inside a topology's loop list: look
the loop id up and read its `radial_next`. -/
def stepRadial (bm : BmeshData) (i : Nat) : Nat :=
  (bm.loops.getD i dummyLoopRec).radial_next

/-- Blender mesh invariant (hypothesis of the radial-cycle theorem): each
polygon's `edge_keys` has one entry per loop, and the loop at block
position `j` has an in-range `edge_index` whose mesh edge's sorted vertex
pair is exactly `edge_keys[j]`. -/
def KeysOk (mesh : BMesh) : Prop :=
  ∀ p ∈ mesh.polygons,
    p.edge_keys.length = p.loop_total ∧
    ∀ j ∈ List.range p.loop_total,
      (mesh.loops.getD (p.loop_start + j) dummyBLoop).edge_index
          < mesh.edges.length ∧
      sortPair
          (mesh.edges.getD
            ((mesh.loops.getD (p.loop_start + j) dummyBLoop).edge_index)
            ⟨0, 0, 0⟩).v1
          (mesh.edges.getD
            ((mesh.loops.getD (p.loop_start + j) dummyBLoop).edge_index)
            ⟨0, 0, 0⟩).v2
        = p.edge_keys.getD j (0, 0)

/-- Blender mesh invariant: no two mesh edges share the same unordered
vertex pair. -/
def EdgeKeysNodup (mesh : BMesh) : Prop :=
  (mesh.edges.map fun e => sortPair e.v1 e.v2).Nodup

instance (mesh : BMesh) : Decidable (KeysOk mesh) := by
  unfold KeysOk; infer_instance

instance (mesh : BMesh) : Decidable (EdgeKeysNodup mesh) := by
  unfold EdgeKeysNodup; infer_instance

/-- Model of `analyze_mesh_topology`: extract vertices, edges, loops and faces,
build adjacency, extract subdivision data, and compute radial links. -/
def analyze_mesh_topology (mesh : BMesh) : BmeshData :=
  let bm : BmeshData :=
    { vertices := mkVertices mesh.vertices,
      edges := mkEdges mesh.edges,
      loops := loopsOfPolys mesh.loops mesh.polygons 0 0,
      faces := facesOfPolys mesh.loops mesh.polygons 0 0 }
  calculate_radial_loops (extract_subdivision_data (build_adjacency bm) mesh)

/-! ## The `EXT_mesh_bmesh` extension block -/

/-- The `"vertices"` section: `count`, the `positions` accessor index, the
optional flattened `edges` adjacency accessor.  (A vertex `CREASE`
attribute is never attached — `vertices_crease` never exists.) -/
structure VerticesExt where
  count : Nat
  positions : Option Nat := none
  edges : Option Nat := none
  deriving DecidableEq

/-- The `"edges"` section: `count`, the pairwise `vertices` accessor, the
optional flattened `faces` adjacency accessor, the optional `CREASE`
attribute accessor. -/
structure EdgesExt where
  count : Nat
  vertices : Option Nat := none
  faces : Option Nat := none
  creaseAttr : Option Nat := none
  deriving DecidableEq

/-- The `"loops"` section: `count` and the seven topology accessors (all
written by the exporter; all optional for the decoder).  Loop
`TEXCOORD_*`/`COLOR_*` attributes are outside the embedded mesh domain
(no UV/color layers) and are never read by the decoder. -/
structure LoopsExt where
  count : Nat
  topology_vertex : Option Nat := none
  topology_edge : Option Nat := none
  topology_face : Option Nat := none
  topology_next : Option Nat := none
  topology_prev : Option Nat := none
  topology_radial_next : Option Nat := none
  topology_radial_prev : Option Nat := none
  deriving DecidableEq

/-- The `"faces"` section: `count`, flattened `vertices`/`edges`/`loops`
accessors, `normals`, and the `offsets` accessor.  (A `HOLES` attribute is
never attached — `faces_holes` never exists.) -/
structure FacesExt where
  count : Nat
  vertices : Option Nat := none
  edges : Option Nat := none
  loops : Option Nat := none
  normals : Option Nat := none
  offsets : Option Nat := none
  deriving DecidableEq

/-- The extension block: each section key present or absent. -/
structure ExtBlock where
  vertices : Option VerticesExt := none
  edges : Option EdgesExt := none
  loops : Option LoopsExt := none
  faces : Option FacesExt := none
  deriving DecidableEq

/-- The empty extension block (`extension_data = {}`). -/
def emptyExt : ExtBlock := {}

/-- Python `if not extension_data:` — an absent or empty dict is falsy. -/
def extIsEmpty (e : ExtBlock) : Bool :=
  e.vertices = none ∧ e.edges = none ∧ e.loops = none ∧ e.faces = none

/-! ## `export_bmesh_topology` -/

/-- The vertices section of `export_bmesh_topology` (skipped when
`bmesh_data["vertices"]` is empty). -/
def exportVerticesSection (st : GState) (bm : BmeshData) :
    Except PyErr (GState × Option VerticesExt) := do
  if bm.vertices.isEmpty then .ok (st, none)
  else
    let positions := bm.vertices.map (·.position)
    let (st1, posBv) := create_buffer_view st (pack_vector3_array positions)
    let (st2, posAcc) := create_accessor st1 posBv 5126 bm.vertices.length "VEC3"
    let allVertexEdges := bm.vertices.flatMap (·.edges)
    if allVertexEdges.isEmpty then
      .ok (st2, some { count := bm.vertices.length, positions := some posAcc })
    else do
      let data ← pack_uint_array (allVertexEdges.map PVal.int)
      let (st3, bv) := create_buffer_view st2 data
      let (st4, acc) := create_accessor st3 bv 5125 allVertexEdges.length "SCALAR"
      .ok (st4, some { count := bm.vertices.length, positions := some posAcc,
                       edges := some acc })

/-- The edges section of `export_bmesh_topology` (skipped when
`bmesh_data["edges"]` is empty).  The optional `CREASE` attribute is built
by `create_sparse_accessor` over the crease floats. -/
def exportEdgesSection (st : GState) (bm : BmeshData) :
    Except PyErr (GState × Option EdgesExt) := do
  if bm.edges.isEmpty then .ok (st, none)
  else do
    let edgeVertices := bm.edges.flatMap fun e => [e.v1, e.v2]
    let data ← pack_uint_array (edgeVertices.map PVal.int)
    let (st1, bv) := create_buffer_view st data
    let (st2, acc) := create_accessor st1 bv 5125 edgeVertices.length "SCALAR"
    let allEdgeFaces := bm.edges.flatMap (·.faces)
    let (st3, facesAcc) ←
      if allEdgeFaces.isEmpty then pure (st2, (none : Option Nat))
      else do
        let fdata ← pack_uint_array (allEdgeFaces.map PVal.int)
        let (sta, fbv) := create_buffer_view st2 fdata
        let (stb, facc) := create_accessor sta fbv 5125 allEdgeFaces.length "SCALAR"
        pure (stb, some facc)
    match bm.edges_crease with
    | none =>
        .ok (st3, some { count := bm.edges.length, vertices := some acc,
                         faces := facesAcc })
    | some creases => do
        let (st4, creaseAcc) ←
          create_sparse_accessor st3 (creases.map PVal.flt) 5126 "SCALAR"
        .ok (st4, some { count := bm.edges.length, vertices := some acc,
                         faces := facesAcc, creaseAttr := some creaseAcc })

/-- The loops section of `export_bmesh_topology` (skipped when
`bmesh_data["loops"]` is empty): seven density-adaptive `SCALAR` uint32
accessors over the topology arrays. -/
def exportLoopsSection (st : GState) (bm : BmeshData) :
    Except PyErr (GState × Option LoopsExt) := do
  if bm.loops.isEmpty then .ok (st, none)
  else do
    let opt := fun (st : GState) (vals : List Nat) =>
      create_optimized_accessor st (vals.map PVal.int) 5125 "SCALAR"
    let (st1, aV) ← opt st (bm.loops.map (·.vertex))
    let (st2, aE) ← opt st1 (bm.loops.map (·.edge))
    let (st3, aF) ← opt st2 (bm.loops.map (·.face))
    let (st4, aN) ← opt st3 (bm.loops.map (·.next))
    let (st5, aP) ← opt st4 (bm.loops.map (·.prev))
    let (st6, aRN) ← opt st5 (bm.loops.map (·.radial_next))
    let (st7, aRP) ← opt st6 (bm.loops.map (·.radial_prev))
    .ok (st7, some { count := bm.loops.length,
                     topology_vertex := some aV, topology_edge := some aE,
                     topology_face := some aF, topology_next := some aN,
                     topology_prev := some aP, topology_radial_next := some aRN,
                     topology_radial_prev := some aRP })

/-- Model of `math.isinf(v) or math.isnan(v)` over the components of a face
normal. -/
def normalNonFinite (n : Vec3) : Bool :=
  f32IsInf n.1 ∨ f32IsNaN n.1 ∨ f32IsInf n.2.1 ∨ f32IsNaN n.2.1 ∨
    f32IsInf n.2.2 ∨ f32IsNaN n.2.2

/-- The binary32 pattern triple of `Vector((0, 0, 1))`. -/
def defaultNormal : Vec3 := (0, 0, 0x3F800000)

/-- The faces section of `export_bmesh_topology` (skipped when
`bmesh_data["faces"]` is empty).  `all_face_edges` extends with
`face["edges"]`, which holds `(v1, v2)` vertex-pair tuples
(`polygon.edge_keys`), so `pack_uint_array` receives tuples there. -/
def exportFacesSection (st : GState) (bm : BmeshData) :
    Except PyErr (GState × Option FacesExt) := do
  if bm.faces.isEmpty then .ok (st, none)
  else do
    let allFaceVertices := bm.faces.flatMap (·.vertices)
    let allFaceEdges := bm.faces.flatMap (·.edges)
    let allFaceLoops := bm.faces.flatMap (·.loops)
    let faceOffsets := (bm.faces.foldl
      (fun (acc : List (Nat × Nat × Nat) × Nat × Nat × Nat) f =>
        let (offs, vo, eo, lo) := acc
        (offs ++ [(vo, eo, lo)],
         vo + f.vertices.length, eo + f.edges.length, lo + f.loops.length))
      ([], 0, 0, 0)).1
    let (st1, vAcc) ←
      if allFaceVertices.isEmpty then pure (st, (none : Option Nat))
      else do
        let data ← pack_uint_array (allFaceVertices.map PVal.int)
        let (sta, bv) := create_buffer_view st data
        let (stb, acc) := create_accessor sta bv 5125 allFaceVertices.length "SCALAR"
        pure (stb, some acc)
    let (st2, eAcc) ←
      if allFaceEdges.isEmpty then pure (st1, (none : Option Nat))
      else do
        let data ← pack_uint_array (allFaceEdges.map fun k => PVal.pair k.1 k.2)
        let (sta, bv) := create_buffer_view st1 data
        let (stb, acc) := create_accessor sta bv 5125 allFaceEdges.length "SCALAR"
        pure (stb, some acc)
    let (st3, lAcc) ←
      if allFaceLoops.isEmpty then pure (st2, (none : Option Nat))
      else do
        let data ← pack_uint_array (allFaceLoops.map PVal.int)
        let (sta, bv) := create_buffer_view st2 data
        let (stb, acc) := create_accessor sta bv 5125 allFaceLoops.length "SCALAR"
        pure (stb, some acc)
    let normals := bm.faces.map fun f =>
      if normalNonFinite f.normal then defaultNormal else f.normal
    let (st4, nAcc) ←
      if normals.isEmpty then pure (st3, (none : Option Nat))
      else
        let (sta, bv) := create_buffer_view st3 (pack_vector3_array normals)
        let (stb, acc) := create_accessor sta bv 5126 normals.length "VEC3"
        pure (stb, some acc)
    let offsetsData := faceOffsets.foldr
      (fun o acc => le32 o.1 ++ le32 o.2.1 ++ le32 o.2.2 ++ acc) []
    let (st5, oBv) := create_buffer_view st4 offsetsData
    let (st6, oAcc) := create_accessor st5 oBv 5125 bm.faces.length "VEC3"
    .ok (st6, some { count := bm.faces.length, vertices := vAcc,
                     edges := eAcc, loops := lAcc, normals := nAcc,
                     offsets := some oAcc })

/-- Model of `export_bmesh_topology`: the four sections in order, sharing the
mutable buffer/accessor state. -/
def export_bmesh_topology (st : GState) (bm : BmeshData) :
    Except PyErr (GState × ExtBlock) := do
  let (st1, vSec) ← exportVerticesSection st bm
  let (st2, eSec) ← exportEdgesSection st1 bm
  let (st3, lSec) ← exportLoopsSection st2 bm
  let (st4, fSec) ← exportFacesSection st3 bm
  .ok (st4, { vertices := vSec, edges := eSec, loops := lSec, faces := fSec })

/-- Model of `export_mesh`: run extraction and encoding for one mesh; any exception
is caught, logged, and converted into `None` ("no extension data"). -/
def export_mesh (st : GState) (mesh : BMesh) : Option ExtBlock :=
  match export_bmesh_topology st (analyze_mesh_topology mesh) with
  | .ok (_, ext) => some ext
  | .error _ => none

/-! ## Importer: buffer/accessor reading -/

/-- The importer's read-only glTF context: `gltf_data["bufferViews"]`,
`gltf_data["accessors"]` and the buffers list.  Indices into these lists
come from unsigned wire data, so they are `Nat`. -/
structure GltfCtx where
  bufferViews : List BufferView
  accessors : List Accessor
  buffers : List (List Nat)

/-- The context reading back what an exporter state wrote
(`buffers = [buffer0]`). -/
def ctxOfState (st : GState) : GltfCtx :=
  ⟨st.bufferViews, st.accessors, [st.buffer0]⟩

/-- Model of `read_buffer_view`: bounds-check the view index and the buffer index,
then slice `buffer[byteOffset : byteOffset + byteLength]` (a Python slice
clamps, it never raises). -/
def read_buffer_view (ctx : GltfCtx) (bufferViewIndex : Nat) :
    Except PyErr (List Nat) := do
  if ctx.bufferViews.length ≤ bufferViewIndex then
    .error (.invalidBufferViewIndex bufferViewIndex)
  else
    let bv := ctx.bufferViews.getD bufferViewIndex ⟨0, 0, 0⟩
    if ctx.buffers.length ≤ bv.buffer then .error (.invalidBufferIndex bv.buffer)
    else
      let buf := ctx.buffers.getD bv.buffer []
      .ok ((buf.drop bv.byteOffset).take bv.byteLength)

/-- The `type_map` of `read_accessor_data`: the byte size of a supported
component type, `none` for an unsupported one. -/
def componentByteSize (componentType : Nat) : Option Nat :=
  if componentType = 5120 then some 1        -- BYTE
  else if componentType = 5121 then some 1   -- UNSIGNED_BYTE
  else if componentType = 5122 then some 2   -- SHORT
  else if componentType = 5123 then some 2   -- UNSIGNED_SHORT
  else if componentType = 5125 then some 4   -- UNSIGNED_INT
  else if componentType = 5126 then some 4   -- FLOAT
  else none

/-- Model of `struct.unpack_from(fmt, data, off)` for one component: requires
`off + size ≤ len(data)`, decodes little-endian, signed types by two's
complement, floats as their bit pattern. -/
def unpackComponent (componentType : Nat) (byteSize : Nat) (data : List Nat)
    (off : Nat) : Except PyErr PVal :=
  if data.length < off + byteSize then .error .structError
  else
    let raw := leNat ((data.drop off).take byteSize)
    if componentType = 5126 then .ok (.flt raw)
    else if componentType = 5120 ∨ componentType = 5122 then
      let bound := 2 ^ (8 * byteSize)
      .ok (.int (if raw < bound / 2 then (raw : Int) else (raw : Int) - bound))
    else .ok (.int raw)

/-- The element-reading loop of `read_accessor_data`: element `i` starts
at `byteOffset + i * components * byteSize`; `SCALAR` elements are bare
values, vector elements are lists of components. -/
def readElements (componentType byteSize components : Nat) (data : List Nat)
    (byteOffset : Nat) (count : Nat) : Except PyErr (List PVal) :=
  mapME (fun i =>
    let off := byteOffset + i * components * byteSize
    if components = 1 then unpackComponent componentType byteSize data off
    else do
      let comps ← mapME (fun k =>
        unpackComponent componentType byteSize data (off + k * byteSize))
        (List.range components)
      .ok (.list comps))
    (List.range count)

/-- Model of `"SCALAR"`..`"VEC4"` recognition of `read_accessor_data` (`SCALAR`
reads bare values; unsupported tags raise). -/
def accessorTypeComponents (accessorType : String) : Option Nat :=
  if accessorType = "SCALAR" then some 1
  else if accessorType = "VEC2" then some 2
  else if accessorType = "VEC3" then some 3
  else if accessorType = "VEC4" then some 4
  else none

/-- Model of `read_accessor_data`: bounds-check the accessor index, fetch the
accessor (a missing `bufferView` key raises `KeyError`), read its buffer
view, check the component type and shape tag, and unpack `count`
elements. -/
def read_accessor_data (ctx : GltfCtx) (accessorIndex : Nat) :
    Except PyErr (List PVal × String) := do
  if ctx.accessors.length ≤ accessorIndex then
    .error (.invalidAccessorIndex accessorIndex)
  else
    let a := ctx.accessors.getD accessorIndex
      { bufferView := none, componentType := 0, count := 0, type := "" }
    match a.bufferView with
    | none => .error .keyError
    | some bvIdx => do
        let data ← read_buffer_view ctx bvIdx
        match componentByteSize a.componentType with
        | none => .error (.unsupportedComponentType a.componentType)
        | some byteSize =>
            match accessorTypeComponents a.type with
            | none => .error (.unsupportedAccessorType a.type)
            | some components => do
                let values ← readElements a.componentType byteSize components
                  data a.byteOffset a.count
                .ok (values, a.type)

/-- The default element appended by `read_sparse_accessor`'s padding
loop. -/
def sparseDefault (accessorType : String) : PVal :=
  if accessorType = "SCALAR" then .int 0
  else .list (List.replicate (componentsOf accessorType) (.int 0))

/-- Model of `while len(base_values) < count: base_values.append(default)`. -/
def padBase (base : List PVal) (count : Nat) (accessorType : String) :
    List PVal :=
  base ++ List.replicate (count - base.length) (sparseDefault accessorType)

/-- Model of `base_values[index] = v` with Python list-assignment semantics:
non-negative in-range indices assign, negative indices wrap from the end,
anything else raises `IndexError`. -/
def pySetItem (base : List PVal) (index : Int) (v : PVal) :
    Except PyErr (List PVal) :=
  if 0 ≤ index ∧ index < (base.length : Int) then
    .ok (base.set index.toNat v)
  else if index < 0 ∧ -(base.length : Int) ≤ index then
    .ok (base.set (base.length - (-index).toNat) v)
  else .error .indexError

/-- One step of the sparse-override loop
(`for i, index in enumerate(indices_data)`): skip indices `≥ count`,
fetch `values_data[i]` (raising `IndexError` past its end), and assign. -/
def applyOneOverride (count : Nat) (valuesData : List PVal) (i : Nat)
    (index : PVal) (base : List PVal) : Except PyErr (List PVal) := do
  let lt ← index.ltNat count
  if lt then do
    let v ← match valuesData.get? i with
            | some v => pure v
            | none => Except.error PyErr.indexError
    match index with
    | .int n => pySetItem base n v
    | .flt _ => .error .typeError  -- list subscripts cannot be floats
    | _ => .error .typeError
  else .ok base

/-- The sparse-override loop over all indices. -/
def applyOverrides (count : Nat) (valuesData : List PVal) (i : Nat)
    (indices : List PVal) (base : List PVal) : Except PyErr (List PVal) :=
  match indices with
  | [] => .ok base
  | index :: rest => do
      let base1 ← applyOneOverride count valuesData i index base
      applyOverrides count valuesData (i + 1) rest base1

/-- Model of `read_sparse_accessor`: a dense accessor is read directly; a sparse
one starts from its base data (absent `bufferView` → empty), pads with
defaults to `count`, then overlays the overrides.  Note the source passes
`sparse["indices"]["bufferView"]` and `sparse["values"]["bufferView"]` —
buffer-view indices — to `read_accessor_data`, which interprets them as
accessor indices. -/
def read_sparse_accessor (ctx : GltfCtx) (accessorIndex : Nat) :
    Except PyErr (List PVal) := do
  if ctx.accessors.length ≤ accessorIndex then
    .error (.invalidAccessorIndex accessorIndex)
  else
    let a := ctx.accessors.getD accessorIndex
      { bufferView := none, componentType := 0, count := 0, type := "" }
    match a.sparse with
    | none => do
        let (values, _) ← read_accessor_data ctx accessorIndex
        .ok values
    | some sparse => do
        let baseRead ←
          match a.bufferView with
          | some _ => do
              let (values, _) ← read_accessor_data ctx accessorIndex
              pure values
          | none => pure []
        let base := padBase baseRead a.count a.type
        let (indicesData, _) ← read_accessor_data ctx sparse.indices.bufferView
        let (valuesData, _) ← read_accessor_data ctx sparse.values.bufferView
        applyOverrides a.count valuesData 0 indicesData base

/-! ## Importer: topology reconstruction -/

/-- A reconstructed vertex.  The decoder builds `Vector` positions; we
keep the three component values (ints are coerced to floats by `Vector`,
observable only through the bit pattern). -/
structure IVert where
  id : Nat
  position : Vec3
  deriving DecidableEq

/-- A reconstructed edge (`int()`-converted endpoints). -/
structure IEdge where
  id : Nat
  v1 : Int
  v2 : Int
  deriving DecidableEq

/-- A reconstructed loop (`int()`-converted fields; missing arrays
default `vertex`/`edge`/`face` to 0 and the cycle fields to the loop's own
index). -/
structure ILoop where
  id : Nat
  vertex : Int
  edge : Int
  face : Int
  next : Int
  prev : Int
  radial_next : Int
  radial_prev : Int
  deriving DecidableEq

/-- A reconstructed face. -/
structure IFace where
  id : Nat
  vertices : List Int
  edges : List Int
  loops : List Int
  normal : Vec3
  deriving DecidableEq

/-- The reconstructed `bmesh_data`. -/
structure IBmesh where
  vertices : List IVert
  edges : List IEdge
  loops : List ILoop
  faces : List IFace
  deriving DecidableEq

/-- Model of `Vector((pos[0], pos[1], pos[2]))` component: a float keeps its
pattern, an int is coerced, nested tuples/lists raise `TypeError`. -/
def vecComponent (v : PVal) : Except PyErr Nat := pvalF32Bits v

/-- The vertices block of `reconstruct_bmesh_topology`: `count` records;
a record gets the read position when index `i` is within the resolved
array and the entry is a list of length ≥ 3, else the zero vector.  With
no `positions` key, no vertex records are appended at all. -/
def reconstructVertices (ctx : GltfCtx) (vd : VerticesExt) :
    Except PyErr (List IVert) := do
  match vd.positions with
  | none => .ok []
  | some posAcc => do
      let positions ← read_sparse_accessor ctx posAcc
      mapME (fun i => do
        match positions.get? i with
        | some (.list (x :: y :: z :: _)) => do
            let bx ← vecComponent x
            let by_ ← vecComponent y
            let bz ← vecComponent z
            .ok ⟨i, (bx, by_, bz)⟩
        | _ => .ok ⟨i, (0, 0, 0)⟩)
        (List.range vd.count)

/-- The edges block: entries that are lists of length ≥ 2 give
`int()`-converted endpoints, anything else degrades to `[0, 0]`.  With no
`vertices` key, no edge records are appended. -/
def reconstructEdges (ctx : GltfCtx) (ed : EdgesExt) :
    Except PyErr (List IEdge) := do
  match ed.vertices with
  | none => .ok []
  | some acc => do
      let edgeVertices ← read_sparse_accessor ctx acc
      mapME (fun i => do
        match edgeVertices.get? i with
        | some (.list (a :: b :: _)) => do
            let va ← a.asInt
            let vb ← b.asInt
            .ok ⟨i, va, vb⟩
        | _ => .ok ⟨i, 0, 0⟩)
        (List.range ed.count)

/-- Resolve one optional loop-topology accessor
(`if key in loops_data: arr = read_sparse_accessor(...)`, else the array
stays `[]`). -/
def readOptArray (ctx : GltfCtx) : Option Nat → Except PyErr (List PVal)
  | none => .ok []
  | some acc => read_sparse_accessor ctx acc

/-- Model of `int(arr[i]) if i < len(arr) else dflt`. -/
def intAtOr (arr : List PVal) (i : Nat) (dflt : Int) : Except PyErr Int :=
  match arr.get? i with
  | some v => v.asInt
  | none => .ok dflt

/-- The record built for loop `i` from the seven resolved topology
arrays: a missing `vertex`/`edge`/`face` entry defaults to 0 and a missing
cycle entry to `i` itself. -/
def loopRow (tV tE tF tN tP tRN tRP : List PVal) (i : Nat) :
    Except PyErr ILoop := do
  let v ← intAtOr tV i 0
  let e ← intAtOr tE i 0
  let f ← intAtOr tF i 0
  let nx ← intAtOr tN i i
  let pv ← intAtOr tP i i
  let rn ← intAtOr tRN i i
  let rp ← intAtOr tRP i i
  .ok ⟨i, v, e, f, nx, pv, rn, rp⟩

/-- The loops block: seven optional topology arrays, then `count` loop
records. -/
def reconstructLoops (ctx : GltfCtx) (ld : LoopsExt) :
    Except PyErr (List ILoop) := do
  let tV ← readOptArray ctx ld.topology_vertex
  let tE ← readOptArray ctx ld.topology_edge
  let tF ← readOptArray ctx ld.topology_face
  let tN ← readOptArray ctx ld.topology_next
  let tP ← readOptArray ctx ld.topology_prev
  let tRN ← readOptArray ctx ld.topology_radial_next
  let tRP ← readOptArray ctx ld.topology_radial_prev
  mapME (loopRow tV tE tF tN tP tRN tRP) (List.range ld.count)

/-- Model of `int(face_offsets[i][k]) if len(face_offsets[i]) > k else dflt` — the
offset-triple component access. -/
def offsetComponent (entry : PVal) (k : Nat) (dflt : Int) :
    Except PyErr Int := do
  let len ← entry.pyLen
  if k < len then
    match entry with
    | .list xs =>
        match xs.get? k with
        | some v => v.asInt
        | none => .error .indexError
    | .pair a b => .ok (if k = 0 then (a : Int) else (b : Int))
    | _ => .error .typeError
  else .ok dflt

/-- Model of `[int(arr[j]) for j in range(start, stop) if j < len(arr)]`.  (The
embedding covers the non-negative offsets the unsigned wire types
produce; a negative bound from a signed component type would take
Python's negative-index paths instead.) -/
def sliceInts (arr : List PVal) (start stop : Nat) :
    Except PyErr (List Int) :=
  mapME (fun j =>
    match arr.get? j with
    | some v => v.asInt
    | none => .error .indexError)
    ((List.range' start (stop - start)).filter (· < arr.length))

/-- A plain Python subscript `entry[k]` (no length guard): `IndexError`
past the end of a list or tuple, `TypeError` on a non-sequence. -/
def pySubscript (entry : PVal) (k : Nat) : Except PyErr PVal :=
  match entry with
  | .list xs =>
      match xs.get? k with
      | some v => .ok v
      | none => .error .indexError
  | .pair a b =>
      if k = 0 then .ok (.int a)
      else if k = 1 then .ok (.int b)
      else .error .indexError
  | _ => .error .typeError

/-- One face of the offsets-driven reconstruction loop (the
`if i < len(face_offsets)` branch builds a sliced face, the `else` branch
an empty one). -/
def reconstructFace (faceCount : Nat) (faceVertices faceEdges faceLoops
    normals faceOffsets : List PVal) (i : Nat) : Except PyErr IFace := do
  match faceOffsets.get? i with
  | some entry => do
      let vertexStartI ← offsetComponent entry 0 0
      let edgesStartI ← offsetComponent entry 1 0
      let loopsStartI ← offsetComponent entry 2 vertexStartI
      let vertexStart := vertexStartI.toNat
      let edgesStart := edgesStartI.toNat
      let loopsStart := loopsStartI.toNat
      let vertexEnd ←
        if i = faceCount - 1 then pure faceVertices.length
        else do
          match faceOffsets.get? (i + 1) with
          | none => Except.error PyErr.indexError
          | some nxt => do
              let c ← pySubscript nxt 0
              let v ← c.asInt
              pure v.toNat
      let edgesEnd ←
        if i = faceCount - 1 then pure faceEdges.length
        else do
          match faceOffsets.get? (i + 1) with
          | none => Except.error PyErr.indexError
          | some nxt => do
              let len ← nxt.pyLen
              if len ≤ 1 then pure faceEdges.length
              else do
                let c ← pySubscript nxt 1
                let v ← c.asInt
                pure v.toNat
      let loopsEnd ←
        if i = faceCount - 1 then pure faceLoops.length
        else do
          match faceOffsets.get? (i + 1) with
          | none => Except.error PyErr.indexError
          | some nxt => do
              let len ← nxt.pyLen
              if len ≤ 2 then pure faceLoops.length
              else do
                let c ← pySubscript nxt 2
                let v ← c.asInt
                pure v.toNat
      let vertices ← sliceInts faceVertices vertexStart vertexEnd
      let edges ← sliceInts faceEdges edgesStart edgesEnd
      let loops ←
        if faceLoops.isEmpty then
          pure ((List.range' loopsStart vertices.length).map Int.ofNat)
        else sliceInts faceLoops loopsStart loopsEnd
      let normal ←
        match normals.get? i with
        | some (.list (x :: y :: z :: _)) => do
            let bx ← vecComponent x
            let by_ ← vecComponent y
            let bz ← vecComponent z
            pure (bx, by_, bz)
        | _ => pure defaultNormal
      .ok ⟨i, vertices, edges, loops, normal⟩
  | none =>
      .ok ⟨i, [], [], [], defaultNormal⟩

/-- The faces block of `reconstruct_bmesh_topology`.  The source contains
a `for`/`else` whose `else` is attached to the `for` loop (not to the
`if "offsets"` check): since the loop body has no `break`, the
"No offsets, fail gracefully" fallback that appends `count` empty faces
runs after every completed offsets loop, and never runs when `offsets` is
absent (the entire `if "offsets"` block is skipped, appending nothing). -/
def reconstructFaces (ctx : GltfCtx) (fd : FacesExt) :
    Except PyErr (List IFace) := do
  let faceVertices ← readOptArray ctx fd.vertices
  let faceEdges ← readOptArray ctx fd.edges
  let faceLoops ← readOptArray ctx fd.loops
  let normals ← readOptArray ctx fd.normals
  match fd.offsets with
  | some offAcc => do
      let faceOffsets ← read_sparse_accessor ctx offAcc
      let sliced ← mapME
        (reconstructFace fd.count faceVertices faceEdges faceLoops normals
          faceOffsets)
        (List.range fd.count)
      -- for/else fallback: the loop completed without break, so the
      -- empty-face block runs as well.
      let fallback := (List.range fd.count).map fun i =>
        (⟨i, [], [], [], defaultNormal⟩ : IFace)
      .ok (sliced ++ fallback)
  | none => .ok []

/-- Model of `reconstruct_bmesh_topology`: the four blocks, each skipped entirely
when its section key is absent. -/
def reconstruct_bmesh_topology (ctx : GltfCtx) (ext : ExtBlock) :
    Except PyErr IBmesh := do
  let vertices ←
    match ext.vertices with
    | none => pure []
    | some vd => reconstructVertices ctx vd
  let edges ←
    match ext.edges with
    | none => pure []
    | some ed => reconstructEdges ctx ed
  let loops ←
    match ext.loops with
    | none => pure []
    | some ld => reconstructLoops ctx ld
  let faces ←
    match ext.faces with
    | none => pure []
    | some fd => reconstructFaces ctx fd
  .ok ⟨vertices, edges, loops, faces⟩

/-- The pure content of `create_blender_mesh_from_bmesh`: the vertex
position list and the polygons taken from faces with at least 3
vertices. -/
def buildMeshData (bm : IBmesh) : List Vec3 × List (List Int) :=
  (bm.vertices.map (·.position),
   (bm.faces.filter fun f => 3 ≤ f.vertices.length).map (·.vertices))

/-- Model of `import_primitive`: a primitive without (or with a falsy/empty)
extension block yields `None`; otherwise the reconstruction runs and any
exception is caught and converted into `None`. -/
def import_primitive (ctx : GltfCtx) (ext : Option ExtBlock) :
    Option (List Vec3 × List (List Int)) :=
  match ext with
  | none => none
  | some e =>
      if extIsEmpty e then none
      else
        match reconstruct_bmesh_topology ctx e with
        | .ok bm => some (buildMeshData bm)
        | .error _ => none

/-! ## Concrete fixtures -/

/-- A single triangle: three vertices, the three Blender-derived edges,
one polygon with its `edge_keys`, three loops. -/
def triMesh : BMesh :=
  { vertices := [⟨(0, 0, 0)⟩, ⟨(0x3F800000, 0, 0)⟩, ⟨(0, 0x3F800000, 0)⟩],
    edges := [⟨0, 1, 0⟩, ⟨1, 2, 0⟩, ⟨0, 2, 0⟩],
    polygons := [⟨0, 3, [(0, 1), (1, 2), (0, 2)], (0, 0, 0x3F800000)⟩],
    loops := [⟨0, 0⟩, ⟨1, 1⟩, ⟨2, 2⟩] }

/-- A mesh with one vertex and no faces. -/
def oneVertMesh : BMesh :=
  { vertices := [⟨(0, 0, 0)⟩], edges := [], polygons := [], loops := [] }

/-- The mesh with no vertices, edges, polygons or loops. -/
def emptyMesh : BMesh := ⟨[], [], [], []⟩

/-- A default accessor value for total projections out of the accessor
list. -/
def dfltAccessor : Accessor :=
  { bufferView := none, componentType := 0, count := 0, type := "" }

/-- Encode an array with `create_sparse_accessor` into a fresh arena and
resolve the resulting accessor with `read_sparse_accessor` over the same
buffers and accessor list. -/
def roundtripSparse (values : List PVal) (componentType : Nat)
    (accessorType : String) : Except PyErr (List PVal) :=
  match create_sparse_accessor emptyState values componentType accessorType with
  | .ok (st, i) => read_sparse_accessor (ctxOfState st) i
  | .error e => .error e

/-- The `count` field of the accessor an accessor-creating call
returns. -/
def resultCount (r : Except PyErr (GState × Nat)) : Nat :=
  match r with
  | .ok (st, i) => (st.accessors.getD i dfltAccessor).count
  | .error _ => 0

/-- One hundred default elements (at the claimed "at least 100"
boundary). -/
def vals100 : List PVal := List.replicate 100 (PVal.int 0)

/-- An extension block whose faces section declares one face but has no
`offsets` key. -/
def extFacesNoOffsets : ExtBlock := { faces := some { count := 1 } }

/-- An arena holding an offsets accessor `[(0,0,0)]` (index 0) and a
face-vertices accessor `[0,1,2]` (index 1). -/
def stFacesWithOffsets : GState :=
  (create_accessor
    (create_accessor
      (create_buffer_view
        (create_buffer_view emptyState (le32 0 ++ le32 0 ++ le32 0)).1
        (le32 0 ++ le32 1 ++ le32 2)).1
      0 5125 1 "VEC3").1
    1 5125 3 "SCALAR").1

/-- An extension block whose faces section declares one face, with
`offsets` accessor 0 and flattened `vertices` accessor 1. -/
def extFacesWithOffsets : ExtBlock :=
  { faces := some { count := 1, vertices := some 1, offsets := some 0 } }

/-- A Python int packable by `struct.pack("<I", ·)`. -/
def isUIntVal : PVal → Bool
  | .int n => decide (0 ≤ n ∧ n < 2 ^ 32)
  | _ => false

/-- The min/max projection out of an accessor-creating result. -/
def resultMinMax (r : Except PyErr (GState × Nat)) :
    Except PyErr (Option (List PVal) × Option (List PVal)) :=
  r.map fun si => ((si.1.accessors.getD si.2 dfltAccessor).min,
                   (si.1.accessors.getD si.2 dfltAccessor).max)

/-- An extension block whose vertices section addresses the nonexistent
accessor 99 (structural corruption). -/
def extC8 : ExtBlock := { vertices := some { count := 1, positions := some 99 } }

/-- An arena for exercising the read-layer error conditions: one 4-byte
buffer view; accessor 0 has component type 9999, accessor 1 has shape tag
`MAT4`, accessor 2 is well-formed, accessor 3 declares more elements than
its view holds. -/
def stC9 : GState :=
  { buffer0 := le32 7,
    bufferViews := [⟨0, 0, 4⟩],
    accessors :=
      [{ bufferView := some 0, componentType := 9999, count := 1, type := "SCALAR" },
       { bufferView := some 0, componentType := 5125, count := 1, type := "MAT4" },
       { bufferView := some 0, componentType := 5125, count := 1, type := "SCALAR" },
       { bufferView := some 0, componentType := 5125, count := 5, type := "SCALAR" }] }

/-- An arena holding one dense `SCALAR` uint32 accessor reading
`[9, 9]`. -/
def stC10 : GState :=
  (create_accessor (create_buffer_view emptyState (le32 9 ++ le32 9)).1
    0 5125 2 "SCALAR").1

/-- The accessor record `stC10` holds at index 0. -/
def aC10 : Accessor :=
  { bufferView := some 0, componentType := 5125, count := 2, type := "SCALAR" }

/-- The loop list of the extracted topology. -/
def analyzedLoops (mesh : BMesh) : List LoopRec :=
  loopsOfPolys mesh.loops mesh.polygons 0 0

/-- The cycle element at a position, indices read modulo the cycle
length. -/
def cAt (c : List Nat) (j : Nat) : Nat := c.getD (j % c.length) 0

/-- The count of loops per polygon carrying edge `i`. -/
def polyLoopCount (ml : List BLoop) (i : Nat) (p : BPolygon) : Nat :=
  ((List.range p.loop_total).filter
    (fun j => (ml.getD (p.loop_start + j) dummyBLoop).edge_index = i)).length

/-- The count of `edge_keys` entries per polygon resolving to edge `i`. -/
def polyKeyCount (E : List EdgeRec) (i : Nat) (p : BPolygon) : Nat :=
  (p.edge_keys.filter (fun key => edgeMapLookup E key = some i)).length

/-- Two triangles `(0,1,2)` and `(1,3,2)` sharing the edge `(1,2)`:
4 vertices, 5 edges, 2 polygons, 6 loops in Blender layout. -/
def twoTriMesh : BMesh :=
  { vertices := [⟨(0, 0, 0)⟩, ⟨(0x3F800000, 0, 0)⟩, ⟨(0, 0x3F800000, 0)⟩,
                 ⟨(0x3F800000, 0x3F800000, 0)⟩],
    edges := [⟨0, 1, 0⟩, ⟨1, 2, 0⟩, ⟨0, 2, 0⟩, ⟨1, 3, 0⟩, ⟨2, 3, 0⟩],
    polygons := [⟨0, 3, [(0, 1), (1, 2), (0, 2)], (0, 0, 0x3F800000)⟩,
                 ⟨3, 3, [(1, 3), (2, 3), (1, 2)], (0, 0, 0x3F800000)⟩],
    loops := [⟨0, 0⟩, ⟨1, 1⟩, ⟨2, 2⟩, ⟨1, 3⟩, ⟨3, 4⟩, ⟨2, 1⟩] }

/-- The extracted record of the shared edge `(1,2)`: two incident
faces. -/
def eC2 : EdgeRec := ⟨1, 1, 2, [0, 1]⟩

/-- The extracted loop of face 0 running along the shared edge: its
radial links point to loop 5 of face 1. -/
def lC2 : LoopRec := ⟨1, 1, 1, 0, 2, 0, 5, 5⟩

/-- The extracted record of the boundary edge `(0,1)`: one incident
face. -/
def eC2b : EdgeRec := ⟨0, 0, 1, [0]⟩

/-- The extracted loop along the boundary edge: self-referential radial
links. -/
def lC2b : LoopRec := ⟨0, 0, 0, 0, 1, 2, 0, 0⟩

/-- An arena holding two `SCALAR` uint32 accessors: accessor 0 reads
`[7, 8]` and accessor 1 reads `[4, 4]`. -/
def stC6 : GState :=
  (create_accessor
    (create_accessor
      (create_buffer_view
        (create_buffer_view emptyState (le32 7 ++ le32 8)).1
        (le32 4 ++ le32 4)).1
      0 5125 2 "SCALAR").1
    1 5125 2 "SCALAR").1

/-- A loops section with two loops, `topology_vertex` accessor 0 and
`topology_next` accessor 1. -/
def ldC6 : LoopsExt := { count := 2, topology_vertex := some 0, topology_next := some 1 }

/-! ## Theorems -/

/-! ## Claims -/

/-- Claim C1 (code bug): the round-trip
`reconstruct_bmesh_topology ∘ export_bmesh_topology ∘
analyze_mesh_topology` cannot even start on a mesh with a face, because
`export_bmesh_topology` packs `face["edges"]` — the `(v1, v2)` vertex-pair
tuples of `polygon.edge_keys`, not edge ids — through `pack_uint_array`,
where `struct.pack("<I", tuple)` raises `struct.error`.  The theorem
evaluates the encoder at the failing input: a single triangle.  The
enclosing `export_mesh` catches the exception and returns no extension
data. -/
theorem claim_C1_roundtrip_code_bug :
    export_bmesh_topology emptyState (analyze_mesh_topology triMesh)
      = .error .structError ∧
    export_mesh emptyState triMesh = none := ⟨rfl, rfl⟩

/-- Claim C3 (code bug): resolving `create_sparse_accessor`'s output with
`read_sparse_accessor` does not return the input values.  On `[1, 0]`
(`SCALAR` uint32) a true sparse accessor is built, and resolving it raises
`KeyError`: `read_sparse_accessor` passes `sparse["indices"]["bufferView"]`
— a buffer-view index — to `read_accessor_data`, which treats it as an
accessor index and lands on the sparse accessor itself, which has no
`"bufferView"` key.  On the all-default `[0, 0]` the degenerate
single-element dense accessor comes back as `[0]`, not `[0, 0]`. -/
theorem claim_C3_sparse_roundtrip_code_bug :
    roundtripSparse [PVal.int 1, PVal.int 0] 5125 "SCALAR"
      = .error .keyError ∧
    roundtripSparse [PVal.int 0, PVal.int 0] 5125 "SCALAR"
      = .ok [PVal.int 0] := ⟨rfl, rfl⟩

/-- Claim C4 counterexample: at exactly 100 elements (all default, so the
non-default fraction 0 is below 0.3) the claim says the chooser dispatches
to `create_sparse_accessor`, but the source's threshold is `count > 100`,
so the dense path runs: the results differ (a count-100 dense accessor
versus the count-1 degenerate accessor). -/
theorem counterexample_C4_threshold :
    create_optimized_accessor emptyState vals100 5125 "SCALAR"
      ≠ create_sparse_accessor emptyState vals100 5125 "SCALAR" := by
  intro h
  exact absurd (congrArg resultCount h) (by decide)

/-- Reduction of the `Except` monad bind on a success value. -/
theorem exceptBind_ok {ε α β : Type} (a : α) (f : α → Except ε β) :
    (Except.ok a : Except ε α) >>= f = f a := rfl

/-- Reduction of the `Except` monad bind on an error value. -/
theorem exceptBind_error {ε α β : Type} (e : ε) (f : α → Except ε β) :
    (Except.error e : Except ε α) >>= f = .error e := rfl

/-- Helper: `pure` in the `Except` monad is `Except.ok`. -/
theorem exceptPure {ε α : Type} (a : α) :
    (pure a : Except ε α) = .ok a := rfl

/-- Helper: `pack_uint_array` succeeds on packable ints. -/
theorem pack_uint_array_ok (values : List PVal)
    (h : values.all isUIntVal = true) :
    ∃ bs, pack_uint_array values = .ok bs := by
  induction values with
  | nil => exact ⟨[], rfl⟩
  | cons v rest ih =>
      simp only [List.all_cons, Bool.and_eq_true] at h
      obtain ⟨hv, hrest⟩ := h
      obtain ⟨bs, hbs⟩ := ih hrest
      cases v with
      | int n =>
          simp only [isUIntVal, decide_eq_true_eq] at hv
          refine ⟨le32 n.toNat ++ bs, ?_⟩
          simp only [pack_uint_array, packU32, hbs]
          rw [if_pos hv]
          simp [exceptBind_ok]
      | flt bits => simp [isUIntVal] at hv
      | pair a b => simp [isUIntVal] at hv
      | list xs => simp [isUIntVal] at hv

/-- The last element of a snoc, through `getD`. -/
theorem getD_concat_length {α : Type} (l : List α) (a : α) (d : α) :
    (l ++ [a]).getD l.length d = a := by
  simp [List.getD, List.getElem?_concat_length]

/-- Claim C4 as amended: the sparse dispatch needs strictly more than 100
elements (the source tests `count > 100`, not `count >= 100`) together
with a non-default fraction below 0.3; in every other case — including
exactly 100 elements — the dense path runs; and for a non-empty `SCALAR`
array of packable ints the dense path stores `[min(values)]` /
`[max(values)]` on the resulting accessor. -/
theorem claim_C4_amended :
    (∀ (st : GState) (values : List PVal) (ct : Nat) (atype : String),
      100 < values.length →
      10 * nonDefaultCount values atype < 3 * values.length →
      create_optimized_accessor st values ct atype
        = create_sparse_accessor st values ct atype) ∧
    (∀ (st : GState) (values : List PVal) (ct : Nat) (atype : String),
      values.length ≤ 100 ∨ 3 * values.length ≤ 10 * nonDefaultCount values atype →
      create_optimized_accessor st values ct atype
        = create_dense_accessor st values ct atype) ∧
    (∀ (st : GState) (values : List PVal) (ct : Nat) (mn mx : PVal),
      values ≠ [] → values.all isUIntVal = true →
      pyMinInt values = .ok mn → pyMaxInt values = .ok mx →
      resultMinMax (create_dense_accessor st values ct "SCALAR")
        = .ok (some [mn], some [mx])) := by
  refine ⟨?_, ?_, ?_⟩
  · intro st values ct atype h1 h2
    simp only [create_optimized_accessor]
    rw [if_pos ⟨h1, h2⟩]
  · intro st values ct atype h
    simp only [create_optimized_accessor]
    rw [if_neg]
    rcases h with h | h
    · exact fun hc => absurd hc.1 (by omega)
    · exact fun hc => absurd hc.2 (by omega)
  · intro st values ct mn mx hne hall hmn hmx
    obtain ⟨bs, hbs⟩ := pack_uint_array_ok values hall
    obtain ⟨v, vs, rfl⟩ := List.exists_cons_of_ne_nil hne
    simp only [create_dense_accessor, denseMinMax, resultMinMax,
      List.isEmpty_cons, hbs, hmn, hmx, create_accessor, create_buffer_view,
      if_true, if_pos rfl, Bool.false_eq_true, if_false]
    simp [Except.map, exceptBind_ok, exceptPure, getD_concat_length]

/-- Witness for `claim_C4_amended`: at `[5, 2]` (length 2, dense path) the
chooser equals the dense accessor builder, and the dense accessor stores
min `[2]` and max `[5]`. -/
theorem witness_C4_amended :
    create_optimized_accessor emptyState [PVal.int 5, PVal.int 2] 5125 "SCALAR"
      = create_dense_accessor emptyState [PVal.int 5, PVal.int 2] 5125 "SCALAR" ∧
    resultMinMax
        (create_dense_accessor emptyState [PVal.int 5, PVal.int 2] 5125 "SCALAR")
      = .ok (some [PVal.int 2], some [PVal.int 5]) :=
  ⟨claim_C4_amended.2.1 emptyState [PVal.int 5, PVal.int 2] 5125 "SCALAR"
     (Or.inl (by decide)),
   claim_C4_amended.2.2 emptyState [PVal.int 5, PVal.int 2] 5125
     (PVal.int 2) (PVal.int 5) (by simp) (by decide) rfl rfl⟩

/-- Claim C7 counterexample: a mesh with zero faces but one vertex
extracts to a non-empty vertex record set, so "for every mesh with zero
faces, extraction yields four empty record sets" fails; only the fully
empty mesh yields four empty sets. -/
theorem counterexample_C7_zero_faces :
    (analyze_mesh_topology oneVertMesh).vertices ≠ [] := by
  intro h
  exact absurd (congrArg List.length h) (by decide)

/-- Claim C7 as amended: for the empty mesh (no vertices, no edges, no
faces), extraction yields four empty record sets without crashing, and
encoding that result yields the empty extension block — no section
records, hence no `count` fields at all — while creating no accessors or
buffer views (the state is returned unchanged). -/
theorem claim_C7_amended (st : GState) :
    analyze_mesh_topology emptyMesh = ⟨[], [], [], [], none⟩ ∧
    export_bmesh_topology st (analyze_mesh_topology emptyMesh)
      = .ok (st, emptyExt) := ⟨rfl, rfl⟩

/-- Success of an `Except` bind decomposes into successes of both
stages. -/
theorem exceptBind_eq_ok {ε α β : Type} (x : Except ε α) (f : α → Except ε β)
    (c : β) : x >>= f = .ok c ↔ ∃ a, x = .ok a ∧ f a = .ok c := by
  cases x with
  | ok a => simp [exceptBind_ok]
  | error e => simp [exceptBind_error]

/-- Helper: `mapME` preserves length on success. -/
theorem mapME_ok_length {α β : Type} (f : α → Except PyErr β) :
    ∀ (xs : List α) (ys : List β), mapME f xs = .ok ys →
      ys.length = xs.length := by
  intro xs
  induction xs with
  | nil =>
      intro ys h
      rw [mapME] at h
      cases h
      rfl
  | cons x xs ih =>
      intro ys h
      rw [mapME, exceptBind_eq_ok] at h
      obtain ⟨y, hy, h⟩ := h
      rw [exceptBind_eq_ok] at h
      obtain ⟨ys1, hys1, h⟩ := h
      cases h
      simp [ih ys1 hys1]

/-- On success, `mapME` applied the function element-wise. -/
theorem mapME_ok_get {α β : Type} (f : α → Except PyErr β) :
    ∀ (xs : List α) (ys : List β), mapME f xs = .ok ys →
      ∀ (j : Nat) (hx : j < xs.length) (hy : j < ys.length),
        f (xs.get ⟨j, hx⟩) = .ok (ys.get ⟨j, hy⟩) := by
  intro xs
  induction xs with
  | nil => intro ys h j hx hy; cases hx
  | cons x xs ih =>
      intro ys h j hx hy
      rw [mapME, exceptBind_eq_ok] at h
      obtain ⟨y, hy1, h⟩ := h
      rw [exceptBind_eq_ok] at h
      obtain ⟨ys1, hys1, h⟩ := h
      cases h
      cases j with
      | zero => simpa using hy1
      | succ j =>
          exact ih ys1 hys1 j (Nat.lt_of_succ_lt_succ hx) (Nat.lt_of_succ_lt_succ hy)

/-- A success of `mapME f` transports along a pointwise simulation into a
success of `mapME g`. -/
theorem mapME_ok_map {α β : Type} (f g : α → Except PyErr β) (t : β → β)
    (xs : List α)
    (sim : ∀ a ∈ xs, ∀ b, f a = .ok b → g a = .ok (t b)) :
    ∀ (ys : List β), mapME f xs = .ok ys → mapME g xs = .ok (ys.map t) := by
  induction xs with
  | nil =>
      intro ys h
      rw [mapME] at h
      cases h
      rfl
  | cons x xs ih =>
      intro ys h
      rw [mapME, exceptBind_eq_ok] at h
      obtain ⟨y, hy, h⟩ := h
      rw [exceptBind_eq_ok] at h
      obtain ⟨ys1, hys1, h⟩ := h
      cases h
      have hg := sim x (List.mem_cons_self x xs) y hy
      have hrest := ih (fun a ha => sim a (List.mem_cons_of_mem x ha)) ys1 hys1
      rw [mapME, exceptBind_eq_ok]
      exact ⟨t y, hg, by rw [exceptBind_eq_ok]; exact ⟨ys1.map t, hrest, rfl⟩⟩

/-- Helper: `intAtOr` on the empty array always returns the supplied
default. -/
theorem intAtOr_nil (i : Nat) (d : Int) : intAtOr [] i d = .ok d := by
  rw [intAtOr]; rfl

/-- Helper: `mapME` of a pointwise-successful function is the plain map of
its result values. -/
theorem mapME_pure {α β : Type} (g : α → Except PyErr β) (f : α → β) :
    ∀ xs : List α, (∀ a ∈ xs, g a = .ok (f a)) →
      mapME g xs = .ok (xs.map f) := by
  intro xs
  induction xs with
  | nil => intro _; rw [mapME]; rfl
  | cons x xs ih =>
      intro h
      rw [mapME]
      rw [h x (List.mem_cons_self x xs), exceptBind_ok]
      rw [ih (fun a ha => h a (List.mem_cons_of_mem x ha)), exceptBind_ok]
      rfl

/-- Helper: a successful loop row has id equal to its index, and each
topology field whose resolved array is empty carries its default — 0 for
`vertex`/`edge`/`face` (importer lines 241-243) and the row's own index
for the four cycle fields (lines 244-247). -/
theorem loopRow_defaults (tV tE tF tN tP tRN tRP : List PVal) (i : Nat)
    (l : ILoop) (h : loopRow tV tE tF tN tP tRN tRP i = .ok l) :
    l.id = i ∧
      (tV = [] → l.vertex = 0) ∧ (tE = [] → l.edge = 0) ∧
      (tF = [] → l.face = 0) ∧ (tN = [] → l.next = (i : Int)) ∧
      (tP = [] → l.prev = (i : Int)) ∧
      (tRN = [] → l.radial_next = (i : Int)) ∧
      (tRP = [] → l.radial_prev = (i : Int)) := by
  rw [loopRow] at h
  rw [exceptBind_eq_ok] at h; obtain ⟨v, hv, h⟩ := h
  rw [exceptBind_eq_ok] at h; obtain ⟨e, he, h⟩ := h
  rw [exceptBind_eq_ok] at h; obtain ⟨f, hf, h⟩ := h
  rw [exceptBind_eq_ok] at h; obtain ⟨nx, hnx, h⟩ := h
  rw [exceptBind_eq_ok] at h; obtain ⟨pv, hpv, h⟩ := h
  rw [exceptBind_eq_ok] at h; obtain ⟨rn, hrn, h⟩ := h
  rw [exceptBind_eq_ok] at h; obtain ⟨rp, hrp, h⟩ := h
  cases h
  refine ⟨rfl, fun hq => ?_, fun hq => ?_, fun hq => ?_, fun hq => ?_,
    fun hq => ?_, fun hq => ?_, fun hq => ?_⟩
  · rw [hq, intAtOr_nil] at hv; cases hv; rfl
  · rw [hq, intAtOr_nil] at he; cases he; rfl
  · rw [hq, intAtOr_nil] at hf; cases hf; rfl
  · rw [hq, intAtOr_nil] at hnx; cases hnx; rfl
  · rw [hq, intAtOr_nil] at hpv; cases hpv; rfl
  · rw [hq, intAtOr_nil] at hrn; cases hrn; rfl
  · rw [hq, intAtOr_nil] at hrp; cases hrp; rfl

/-- Helper: emptying any single one of the seven resolved topology arrays
re-runs a successful loop row to the same row with that field reset to its
default (0 for `vertex`/`edge`/`face`, the row's own index for the cycle
fields). -/
theorem loopRow_erase_each (tV tE tF tN tP tRN tRP : List PVal) (i : Nat)
    (l : ILoop) (h : loopRow tV tE tF tN tP tRN tRP i = .ok l) :
    loopRow [] tE tF tN tP tRN tRP i = .ok { l with vertex := 0 } ∧
    loopRow tV [] tF tN tP tRN tRP i = .ok { l with edge := 0 } ∧
    loopRow tV tE [] tN tP tRN tRP i = .ok { l with face := 0 } ∧
    loopRow tV tE tF [] tP tRN tRP i = .ok { l with next := (l.id : Int) } ∧
    loopRow tV tE tF tN [] tRN tRP i = .ok { l with prev := (l.id : Int) } ∧
    loopRow tV tE tF tN tP [] tRP i
      = .ok { l with radial_next := (l.id : Int) } ∧
    loopRow tV tE tF tN tP tRN [] i
      = .ok { l with radial_prev := (l.id : Int) } := by
  rw [loopRow] at h
  rw [exceptBind_eq_ok] at h; obtain ⟨v, hv, h⟩ := h
  rw [exceptBind_eq_ok] at h; obtain ⟨e, he, h⟩ := h
  rw [exceptBind_eq_ok] at h; obtain ⟨f, hf, h⟩ := h
  rw [exceptBind_eq_ok] at h; obtain ⟨nx, hnx, h⟩ := h
  rw [exceptBind_eq_ok] at h; obtain ⟨pv, hpv, h⟩ := h
  rw [exceptBind_eq_ok] at h; obtain ⟨rn, hrn, h⟩ := h
  rw [exceptBind_eq_ok] at h; obtain ⟨rp, hrp, h⟩ := h
  cases h
  refine ⟨?_, ?_, ?_, ?_, ?_, ?_, ?_⟩
  · rw [loopRow]
    rw [exceptBind_eq_ok]; refine ⟨0, intAtOr_nil i 0, ?_⟩
    rw [exceptBind_eq_ok]; refine ⟨e, he, ?_⟩
    rw [exceptBind_eq_ok]; refine ⟨f, hf, ?_⟩
    rw [exceptBind_eq_ok]; refine ⟨nx, hnx, ?_⟩
    rw [exceptBind_eq_ok]; refine ⟨pv, hpv, ?_⟩
    rw [exceptBind_eq_ok]; refine ⟨rn, hrn, ?_⟩
    rw [exceptBind_eq_ok]; refine ⟨rp, hrp, ?_⟩
    rfl
  · rw [loopRow]
    rw [exceptBind_eq_ok]; refine ⟨v, hv, ?_⟩
    rw [exceptBind_eq_ok]; refine ⟨0, intAtOr_nil i 0, ?_⟩
    rw [exceptBind_eq_ok]; refine ⟨f, hf, ?_⟩
    rw [exceptBind_eq_ok]; refine ⟨nx, hnx, ?_⟩
    rw [exceptBind_eq_ok]; refine ⟨pv, hpv, ?_⟩
    rw [exceptBind_eq_ok]; refine ⟨rn, hrn, ?_⟩
    rw [exceptBind_eq_ok]; refine ⟨rp, hrp, ?_⟩
    rfl
  · rw [loopRow]
    rw [exceptBind_eq_ok]; refine ⟨v, hv, ?_⟩
    rw [exceptBind_eq_ok]; refine ⟨e, he, ?_⟩
    rw [exceptBind_eq_ok]; refine ⟨0, intAtOr_nil i 0, ?_⟩
    rw [exceptBind_eq_ok]; refine ⟨nx, hnx, ?_⟩
    rw [exceptBind_eq_ok]; refine ⟨pv, hpv, ?_⟩
    rw [exceptBind_eq_ok]; refine ⟨rn, hrn, ?_⟩
    rw [exceptBind_eq_ok]; refine ⟨rp, hrp, ?_⟩
    rfl
  · rw [loopRow]
    rw [exceptBind_eq_ok]; refine ⟨v, hv, ?_⟩
    rw [exceptBind_eq_ok]; refine ⟨e, he, ?_⟩
    rw [exceptBind_eq_ok]; refine ⟨f, hf, ?_⟩
    rw [exceptBind_eq_ok]; refine ⟨(i : Int), intAtOr_nil i i, ?_⟩
    rw [exceptBind_eq_ok]; refine ⟨pv, hpv, ?_⟩
    rw [exceptBind_eq_ok]; refine ⟨rn, hrn, ?_⟩
    rw [exceptBind_eq_ok]; refine ⟨rp, hrp, ?_⟩
    rfl
  · rw [loopRow]
    rw [exceptBind_eq_ok]; refine ⟨v, hv, ?_⟩
    rw [exceptBind_eq_ok]; refine ⟨e, he, ?_⟩
    rw [exceptBind_eq_ok]; refine ⟨f, hf, ?_⟩
    rw [exceptBind_eq_ok]; refine ⟨nx, hnx, ?_⟩
    rw [exceptBind_eq_ok]; refine ⟨(i : Int), intAtOr_nil i i, ?_⟩
    rw [exceptBind_eq_ok]; refine ⟨rn, hrn, ?_⟩
    rw [exceptBind_eq_ok]; refine ⟨rp, hrp, ?_⟩
    rfl
  · rw [loopRow]
    rw [exceptBind_eq_ok]; refine ⟨v, hv, ?_⟩
    rw [exceptBind_eq_ok]; refine ⟨e, he, ?_⟩
    rw [exceptBind_eq_ok]; refine ⟨f, hf, ?_⟩
    rw [exceptBind_eq_ok]; refine ⟨nx, hnx, ?_⟩
    rw [exceptBind_eq_ok]; refine ⟨pv, hpv, ?_⟩
    rw [exceptBind_eq_ok]; refine ⟨(i : Int), intAtOr_nil i i, ?_⟩
    rw [exceptBind_eq_ok]; refine ⟨rp, hrp, ?_⟩
    rfl
  · rw [loopRow]
    rw [exceptBind_eq_ok]; refine ⟨v, hv, ?_⟩
    rw [exceptBind_eq_ok]; refine ⟨e, he, ?_⟩
    rw [exceptBind_eq_ok]; refine ⟨f, hf, ?_⟩
    rw [exceptBind_eq_ok]; refine ⟨nx, hnx, ?_⟩
    rw [exceptBind_eq_ok]; refine ⟨pv, hpv, ?_⟩
    rw [exceptBind_eq_ok]; refine ⟨rn, hrn, ?_⟩
    rw [exceptBind_eq_ok]; refine ⟨(i : Int), intAtOr_nil i i, ?_⟩
    rfl

/-- Counterexample to claim C6: the claim extends the `next[i] = i` default
to "any other of the seven topology fields", but the decoder defaults a
missing `topology_vertex` (like `topology_edge` and `topology_face`) to 0,
not to the index.  A loops section with `count = 2` and all seven keys
absent decodes to records whose `vertex` at index 1 is 0, not 1. -/
theorem counterexample_C6_zero_default :
    reconstructLoops (ctxOfState emptyState)
        ⟨2, none, none, none, none, none, none, none⟩
      = .ok [⟨0, 0, 0, 0, 0, 0, 0, 0⟩, ⟨1, 0, 0, 0, 1, 1, 1, 1⟩] ∧
    ¬ ((⟨1, 0, 0, 0, 1, 1, 1, 1⟩ : ILoop).vertex = (1 : Int)) :=
  ⟨rfl, by decide⟩

/-- Claim C6 (amended): the decoder defaults a missing topology field per
the source, not uniformly to the index — `topology_vertex`, `topology_edge`
and `topology_face` default to 0, and the four cycle fields
(`topology_next`/`prev`/`radial_next`/`radial_prev`) default to the loop's
own index.  Concretely: (1) a loops section with all seven keys absent
decodes without raising to `count` records `⟨i, 0, 0, 0, i, i, i, i⟩`;
(2) whenever a loops section decodes successfully, each record's id is its
index and every absent key's field holds its default; (3) removing any
single one of the seven keys from a successfully decoding section still
decodes without raising, with exactly that field reset to its default. -/
theorem claim_C6_amended :
    (∀ (ctx : GltfCtx) (n : Nat),
      reconstructLoops ctx ⟨n, none, none, none, none, none, none, none⟩
        = .ok ((List.range n).map fun i =>
            ⟨i, 0, 0, 0, (i : Int), (i : Int), (i : Int), (i : Int)⟩)) ∧
    (∀ (ctx : GltfCtx) (ld : LoopsExt) (ls : List ILoop),
      reconstructLoops ctx ld = .ok ls →
      ls.length = ld.count ∧
      ∀ (j : Nat) (hj : j < ls.length),
        (ls.get ⟨j, hj⟩).id = j ∧
        (ld.topology_vertex = none → (ls.get ⟨j, hj⟩).vertex = 0) ∧
        (ld.topology_edge = none → (ls.get ⟨j, hj⟩).edge = 0) ∧
        (ld.topology_face = none → (ls.get ⟨j, hj⟩).face = 0) ∧
        (ld.topology_next = none → (ls.get ⟨j, hj⟩).next = (j : Int)) ∧
        (ld.topology_prev = none → (ls.get ⟨j, hj⟩).prev = (j : Int)) ∧
        (ld.topology_radial_next = none →
          (ls.get ⟨j, hj⟩).radial_next = (j : Int)) ∧
        (ld.topology_radial_prev = none →
          (ls.get ⟨j, hj⟩).radial_prev = (j : Int))) ∧
    (∀ (ctx : GltfCtx) (ld : LoopsExt) (ls : List ILoop),
      reconstructLoops ctx ld = .ok ls →
      reconstructLoops ctx { ld with topology_vertex := none }
        = .ok (ls.map fun l => { l with vertex := 0 }) ∧
      reconstructLoops ctx { ld with topology_edge := none }
        = .ok (ls.map fun l => { l with edge := 0 }) ∧
      reconstructLoops ctx { ld with topology_face := none }
        = .ok (ls.map fun l => { l with face := 0 }) ∧
      reconstructLoops ctx { ld with topology_next := none }
        = .ok (ls.map fun l => { l with next := (l.id : Int) }) ∧
      reconstructLoops ctx { ld with topology_prev := none }
        = .ok (ls.map fun l => { l with prev := (l.id : Int) }) ∧
      reconstructLoops ctx { ld with topology_radial_next := none }
        = .ok (ls.map fun l => { l with radial_next := (l.id : Int) }) ∧
      reconstructLoops ctx { ld with topology_radial_prev := none }
        = .ok (ls.map fun l => { l with radial_prev := (l.id : Int) })) := by
  refine ⟨?_, ?_, ?_⟩
  · intro ctx n
    rw [reconstructLoops]
    rw [exceptBind_eq_ok]; refine ⟨[], rfl, ?_⟩
    rw [exceptBind_eq_ok]; refine ⟨[], rfl, ?_⟩
    rw [exceptBind_eq_ok]; refine ⟨[], rfl, ?_⟩
    rw [exceptBind_eq_ok]; refine ⟨[], rfl, ?_⟩
    rw [exceptBind_eq_ok]; refine ⟨[], rfl, ?_⟩
    rw [exceptBind_eq_ok]; refine ⟨[], rfl, ?_⟩
    rw [exceptBind_eq_ok]; refine ⟨[], rfl, ?_⟩
    exact mapME_pure _ _ (List.range n) (fun a _ => rfl)
  · intro ctx ld ls h
    rw [reconstructLoops] at h
    rw [exceptBind_eq_ok] at h; obtain ⟨tV, hV, h⟩ := h
    rw [exceptBind_eq_ok] at h; obtain ⟨tE, hE, h⟩ := h
    rw [exceptBind_eq_ok] at h; obtain ⟨tF, hF, h⟩ := h
    rw [exceptBind_eq_ok] at h; obtain ⟨tN, hN, h⟩ := h
    rw [exceptBind_eq_ok] at h; obtain ⟨tP, hP, h⟩ := h
    rw [exceptBind_eq_ok] at h; obtain ⟨tRN, hRN, h⟩ := h
    rw [exceptBind_eq_ok] at h; obtain ⟨tRP, hRP, h⟩ := h
    refine ⟨?_, ?_⟩
    · rw [mapME_ok_length _ (List.range ld.count) ls h, List.length_range]
    · intro j hj
      have hx : j < (List.range ld.count).length := by
        rw [List.length_range]
        rw [mapME_ok_length _ (List.range ld.count) ls h, List.length_range] at hj
        exact hj
      have hrow := mapME_ok_get _ (List.range ld.count) ls h j hx hj
      rw [List.get_range] at hrow
      have hd := loopRow_defaults tV tE tF tN tP tRN tRP j _ hrow
      refine ⟨hd.1, fun hn => ?_, fun hn => ?_, fun hn => ?_, fun hn => ?_,
        fun hn => ?_, fun hn => ?_, fun hn => ?_⟩
      · rw [hn] at hV; rw [readOptArray] at hV; cases hV
        exact hd.2.1 rfl
      · rw [hn] at hE; rw [readOptArray] at hE; cases hE
        exact hd.2.2.1 rfl
      · rw [hn] at hF; rw [readOptArray] at hF; cases hF
        exact hd.2.2.2.1 rfl
      · rw [hn] at hN; rw [readOptArray] at hN; cases hN
        exact hd.2.2.2.2.1 rfl
      · rw [hn] at hP; rw [readOptArray] at hP; cases hP
        exact hd.2.2.2.2.2.1 rfl
      · rw [hn] at hRN; rw [readOptArray] at hRN; cases hRN
        exact hd.2.2.2.2.2.2.1 rfl
      · rw [hn] at hRP; rw [readOptArray] at hRP; cases hRP
        exact hd.2.2.2.2.2.2.2 rfl
  · intro ctx ld ls h
    rw [reconstructLoops] at h
    rw [exceptBind_eq_ok] at h; obtain ⟨tV, hV, h⟩ := h
    rw [exceptBind_eq_ok] at h; obtain ⟨tE, hE, h⟩ := h
    rw [exceptBind_eq_ok] at h; obtain ⟨tF, hF, h⟩ := h
    rw [exceptBind_eq_ok] at h; obtain ⟨tN, hN, h⟩ := h
    rw [exceptBind_eq_ok] at h; obtain ⟨tP, hP, h⟩ := h
    rw [exceptBind_eq_ok] at h; obtain ⟨tRN, hRN, h⟩ := h
    rw [exceptBind_eq_ok] at h; obtain ⟨tRP, hRP, h⟩ := h
    refine ⟨?_, ?_, ?_, ?_, ?_, ?_, ?_⟩
    · rw [reconstructLoops]
      rw [exceptBind_eq_ok]; refine ⟨[], rfl, ?_⟩
      rw [exceptBind_eq_ok]; refine ⟨tE, hE, ?_⟩
      rw [exceptBind_eq_ok]; refine ⟨tF, hF, ?_⟩
      rw [exceptBind_eq_ok]; refine ⟨tN, hN, ?_⟩
      rw [exceptBind_eq_ok]; refine ⟨tP, hP, ?_⟩
      rw [exceptBind_eq_ok]; refine ⟨tRN, hRN, ?_⟩
      rw [exceptBind_eq_ok]; refine ⟨tRP, hRP, ?_⟩
      exact mapME_ok_map _ _ _ (List.range ld.count)
        (fun a _ b hb => (loopRow_erase_each tV tE tF tN tP tRN tRP a b hb).1)
        ls h
    · rw [reconstructLoops]
      rw [exceptBind_eq_ok]; refine ⟨tV, hV, ?_⟩
      rw [exceptBind_eq_ok]; refine ⟨[], rfl, ?_⟩
      rw [exceptBind_eq_ok]; refine ⟨tF, hF, ?_⟩
      rw [exceptBind_eq_ok]; refine ⟨tN, hN, ?_⟩
      rw [exceptBind_eq_ok]; refine ⟨tP, hP, ?_⟩
      rw [exceptBind_eq_ok]; refine ⟨tRN, hRN, ?_⟩
      rw [exceptBind_eq_ok]; refine ⟨tRP, hRP, ?_⟩
      exact mapME_ok_map _ _ _ (List.range ld.count)
        (fun a _ b hb => (loopRow_erase_each tV tE tF tN tP tRN tRP a b hb).2.1)
        ls h
    · rw [reconstructLoops]
      rw [exceptBind_eq_ok]; refine ⟨tV, hV, ?_⟩
      rw [exceptBind_eq_ok]; refine ⟨tE, hE, ?_⟩
      rw [exceptBind_eq_ok]; refine ⟨[], rfl, ?_⟩
      rw [exceptBind_eq_ok]; refine ⟨tN, hN, ?_⟩
      rw [exceptBind_eq_ok]; refine ⟨tP, hP, ?_⟩
      rw [exceptBind_eq_ok]; refine ⟨tRN, hRN, ?_⟩
      rw [exceptBind_eq_ok]; refine ⟨tRP, hRP, ?_⟩
      exact mapME_ok_map _ _ _ (List.range ld.count)
        (fun a _ b hb =>
          (loopRow_erase_each tV tE tF tN tP tRN tRP a b hb).2.2.1)
        ls h
    · rw [reconstructLoops]
      rw [exceptBind_eq_ok]; refine ⟨tV, hV, ?_⟩
      rw [exceptBind_eq_ok]; refine ⟨tE, hE, ?_⟩
      rw [exceptBind_eq_ok]; refine ⟨tF, hF, ?_⟩
      rw [exceptBind_eq_ok]; refine ⟨[], rfl, ?_⟩
      rw [exceptBind_eq_ok]; refine ⟨tP, hP, ?_⟩
      rw [exceptBind_eq_ok]; refine ⟨tRN, hRN, ?_⟩
      rw [exceptBind_eq_ok]; refine ⟨tRP, hRP, ?_⟩
      exact mapME_ok_map _ _ _ (List.range ld.count)
        (fun a _ b hb =>
          (loopRow_erase_each tV tE tF tN tP tRN tRP a b hb).2.2.2.1)
        ls h
    · rw [reconstructLoops]
      rw [exceptBind_eq_ok]; refine ⟨tV, hV, ?_⟩
      rw [exceptBind_eq_ok]; refine ⟨tE, hE, ?_⟩
      rw [exceptBind_eq_ok]; refine ⟨tF, hF, ?_⟩
      rw [exceptBind_eq_ok]; refine ⟨tN, hN, ?_⟩
      rw [exceptBind_eq_ok]; refine ⟨[], rfl, ?_⟩
      rw [exceptBind_eq_ok]; refine ⟨tRN, hRN, ?_⟩
      rw [exceptBind_eq_ok]; refine ⟨tRP, hRP, ?_⟩
      exact mapME_ok_map _ _ _ (List.range ld.count)
        (fun a _ b hb =>
          (loopRow_erase_each tV tE tF tN tP tRN tRP a b hb).2.2.2.2.1)
        ls h
    · rw [reconstructLoops]
      rw [exceptBind_eq_ok]; refine ⟨tV, hV, ?_⟩
      rw [exceptBind_eq_ok]; refine ⟨tE, hE, ?_⟩
      rw [exceptBind_eq_ok]; refine ⟨tF, hF, ?_⟩
      rw [exceptBind_eq_ok]; refine ⟨tN, hN, ?_⟩
      rw [exceptBind_eq_ok]; refine ⟨tP, hP, ?_⟩
      rw [exceptBind_eq_ok]; refine ⟨[], rfl, ?_⟩
      rw [exceptBind_eq_ok]; refine ⟨tRP, hRP, ?_⟩
      exact mapME_ok_map _ _ _ (List.range ld.count)
        (fun a _ b hb =>
          (loopRow_erase_each tV tE tF tN tP tRN tRP a b hb).2.2.2.2.2.1)
        ls h
    · rw [reconstructLoops]
      rw [exceptBind_eq_ok]; refine ⟨tV, hV, ?_⟩
      rw [exceptBind_eq_ok]; refine ⟨tE, hE, ?_⟩
      rw [exceptBind_eq_ok]; refine ⟨tF, hF, ?_⟩
      rw [exceptBind_eq_ok]; refine ⟨tN, hN, ?_⟩
      rw [exceptBind_eq_ok]; refine ⟨tP, hP, ?_⟩
      rw [exceptBind_eq_ok]; refine ⟨tRN, hRN, ?_⟩
      rw [exceptBind_eq_ok]; refine ⟨[], rfl, ?_⟩
      exact mapME_ok_map _ _ _ (List.range ld.count)
        (fun a _ b hb =>
          (loopRow_erase_each tV tE tF tN tP tRN tRP a b hb).2.2.2.2.2.2)
        ls h

/-- Helper: `getD` agrees with a successful `get?`. -/
theorem getD_of_get? {α : Type} {l : List α} {n : Nat} {a : α} (d : α)
    (h : l.get? n = some a) : l.getD n d = a := by
  simp [List.getD, ← List.get?_eq_getElem?, h]

/-- A successful `get?` index is in bounds. -/
theorem lt_length_of_get? {α : Type} {l : List α} {n : Nat} {a : α}
    (h : l.get? n = some a) : n < l.length :=
  (List.get?_eq_some.mp h).choose

/-- Helper: `read_accessor_data` returns exactly `count` elements on success. -/
theorem readAccessorData_ok_length (ctx : GltfCtx) (i : Nat) (a : Accessor)
    (vs : List PVal) (t : String) (hget : ctx.accessors.get? i = some a)
    (h : read_accessor_data ctx i = .ok (vs, t)) : vs.length = a.count := by
  rw [read_accessor_data] at h
  rw [if_neg (not_le.mpr (lt_length_of_get? hget))] at h
  rw [getD_of_get? _ hget] at h
  dsimp only at h
  cases hbv : a.bufferView with
  | none => rw [hbv] at h; cases h
  | some bvIdx =>
      rw [hbv] at h
      rw [exceptBind_eq_ok] at h
      obtain ⟨data, _, h⟩ := h
      cases hcb : componentByteSize a.componentType with
      | none => rw [hcb] at h; cases h
      | some byteSize =>
          rw [hcb] at h
          cases hat : accessorTypeComponents a.type with
          | none => rw [hat] at h; cases h
          | some comps =>
              rw [hat] at h
              rw [exceptBind_eq_ok] at h
              obtain ⟨values, hvals, h⟩ := h
              cases h
              rw [readElements] at hvals
              rw [mapME_ok_length _ _ _ hvals, List.length_range]

/-- Helper: `pySetItem` preserves the list length. -/
theorem pySetItem_ok_length (base : List PVal) (n : Int) (v : PVal)
    (out : List PVal) (h : pySetItem base n v = .ok out) :
    out.length = base.length := by
  rw [pySetItem] at h
  split at h
  · cases h; simp
  · split at h
    · cases h; simp
    · cases h

/-- Helper: `applyOneOverride` preserves the list length. -/
theorem applyOneOverride_ok_length (count : Nat) (vd : List PVal) (i : Nat)
    (index : PVal) (base out : List PVal)
    (h : applyOneOverride count vd i index base = .ok out) :
    out.length = base.length := by
  rw [applyOneOverride, exceptBind_eq_ok] at h
  obtain ⟨lt, _, h⟩ := h
  by_cases hl : lt = true
  · rw [hl, if_pos rfl] at h
    cases hv : vd.get? i with
    | none => rw [hv] at h; cases h
    | some v =>
        rw [hv] at h
        simp only [exceptPure, exceptBind_ok] at h
        cases index with
        | int n => exact pySetItem_ok_length base n v out h
        | flt bits => cases h
        | pair a b => cases h
        | list xs => cases h
  · rw [Bool.not_eq_true] at hl
    rw [hl] at h
    simp only [Bool.false_eq_true, if_false] at h
    cases h
    rfl

/-- An error of an `Except` bind came from one of the two stages. -/
theorem exceptBind_eq_error {ε α β : Type} (x : Except ε α)
    (f : α → Except ε β) (e : ε) :
    x >>= f = .error e → x = .error e ∨ ∃ a, x = .ok a ∧ f a = .error e := by
  cases x with
  | ok a => intro h; exact Or.inr ⟨a, rfl, h⟩
  | error e1 =>
      intro h
      rw [exceptBind_error] at h
      cases h
      exact Or.inl rfl

/-- An error of `mapME` came from one element. -/
theorem mapME_eq_error {α β : Type} (f : α → Except PyErr β) :
    ∀ (xs : List α) (e : PyErr), mapME f xs = .error e →
      ∃ a ∈ xs, f a = .error e := by
  intro xs
  induction xs with
  | nil => intro e h; rw [mapME] at h; cases h
  | cons x xs ih =>
      intro e h
      rw [mapME] at h
      rcases exceptBind_eq_error _ _ _ h with h1 | ⟨y, hy, h1⟩
      · exact ⟨x, List.mem_cons_self x xs, h1⟩
      · rcases exceptBind_eq_error _ _ _ h1 with h2 | ⟨ys, _, h2⟩
        · obtain ⟨a, ha, hf⟩ := ih e h2
          exact ⟨a, List.mem_cons_of_mem x ha, hf⟩
        · cases h2

/-- Helper: `unpackComponent` can only fail with `struct.error`. -/
theorem unpackComponent_error (ct bs : Nat) (data : List Nat) (off : Nat)
    (e : PyErr) (h : unpackComponent ct bs data off = .error e) :
    e = .structError := by
  rw [unpackComponent] at h
  split at h
  · cases h; rfl
  · split at h
    · cases h
    · split at h
      · cases h
      · cases h

/-- Helper: `readElements` can only fail with `struct.error`. -/
theorem readElements_error (ct bs comps : Nat) (data : List Nat)
    (off n : Nat) (e : PyErr)
    (h : readElements ct bs comps data off n = .error e) :
    e = .structError := by
  rw [readElements] at h
  obtain ⟨i, _, hf⟩ := mapME_eq_error _ _ _ h
  by_cases hc : comps = 1
  · rw [if_pos hc] at hf
    exact unpackComponent_error _ _ _ _ _ hf
  · rw [if_neg hc] at hf
    rcases exceptBind_eq_error _ _ _ hf with h1 | ⟨cs, _, h1⟩
    · obtain ⟨k, _, hk⟩ := mapME_eq_error _ _ _ h1
      exact unpackComponent_error _ _ _ _ _ hk
    · cases h1

/-- With in-bounds view and buffer indices, `read_buffer_view` returns
the slice. -/
theorem read_buffer_view_ok (ctx : GltfCtx) (i : Nat) (bv : BufferView)
    (h : ctx.bufferViews.get? i = some bv)
    (hb : bv.buffer < ctx.buffers.length) :
    read_buffer_view ctx i
      = .ok (((ctx.buffers.getD bv.buffer []).drop bv.byteOffset).take
          bv.byteLength) := by
  rw [read_buffer_view]
  rw [if_neg (not_le.mpr (lt_length_of_get? h))]
  rw [getD_of_get? _ h]
  rw [if_neg (not_le.mpr hb)]

/-- The override loop preserves the list length. -/
theorem applyOverrides_ok_length (count : Nat) (vd : List PVal) :
    ∀ (idxs : List PVal) (i : Nat) (base out : List PVal),
      applyOverrides count vd i idxs base = .ok out →
      out.length = base.length := by
  intro idxs
  induction idxs with
  | nil => intro i base out h; rw [applyOverrides] at h; cases h; rfl
  | cons x xs ih =>
      intro i base out h
      rw [applyOverrides, exceptBind_eq_ok] at h
      obtain ⟨base1, hb1, h⟩ := h
      rw [ih (i + 1) base1 out h]
      exact applyOneOverride_ok_length count vd i x base base1 hb1

/-- Claim C10: whenever `read_sparse_accessor` returns, the list has
exactly the accessor's declared `count` elements; and a sparse override
whose (integer) index is at least `count` is skipped by the guard
`index < count` — the override step returns the base list unchanged,
raising nothing. -/
theorem claim_C10_sparse_read_safety :
    (∀ (ctx : GltfCtx) (i : Nat) (a : Accessor) (ls : List PVal),
      ctx.accessors.get? i = some a →
      read_sparse_accessor ctx i = .ok ls →
      ls.length = a.count) ∧
    (∀ (count : Nat) (valuesData : List PVal) (i : Nat) (n : Int)
        (base : List PVal),
      (count : Int) ≤ n →
      applyOneOverride count valuesData i (.int n) base = .ok base) := by
  constructor
  · intro ctx i a ls hget h
    rw [read_sparse_accessor] at h
    rw [if_neg (not_le.mpr (lt_length_of_get? hget))] at h
    rw [getD_of_get? _ hget] at h
    dsimp only at h
    cases hsp : a.sparse with
    | none =>
        rw [hsp] at h
        rw [exceptBind_eq_ok] at h
        obtain ⟨⟨vs, t⟩, hread, h⟩ := h
        cases h
        exact readAccessorData_ok_length ctx i a vs t hget hread
    | some sp =>
        rw [hsp] at h
        dsimp only at h
        cases hbv : a.bufferView with
        | some bvIdx =>
            rw [hbv] at h
            rw [exceptBind_eq_ok] at h
            obtain ⟨readPair, hread, h⟩ := h
            simp only [exceptPure, exceptBind_ok] at h
            rw [exceptBind_eq_ok] at h
            obtain ⟨idxPair, hidx, h⟩ := h
            rw [exceptBind_eq_ok] at h
            obtain ⟨valPair, hvalp, h⟩ := h
            have hb : readPair.1.length = a.count :=
              readAccessorData_ok_length ctx i a readPair.1 readPair.2 hget hread
            rw [applyOverrides_ok_length a.count valPair.1 idxPair.1 0 _ ls h]
            rw [padBase, List.length_append, List.length_replicate]
            omega
        | none =>
            rw [hbv] at h
            simp only [exceptPure, exceptBind_ok] at h
            rw [exceptBind_eq_ok] at h
            obtain ⟨idxPair, hidx, h⟩ := h
            rw [exceptBind_eq_ok] at h
            obtain ⟨valPair, hvalp, h⟩ := h
            rw [applyOverrides_ok_length a.count valPair.1 idxPair.1 0 _ ls h]
            rw [padBase, List.length_append, List.length_replicate]
            simp
  · intro count valuesData i n base h
    have hlt : ¬ (n < (count : Int)) := Int.not_lt.mpr h
    simp [applyOneOverride, PVal.ltNat, exceptBind_ok, hlt]

/-- Claim C8: a failure inside the per-primitive encode or decode never
propagates.  On export, any exception from
`analyze_mesh_topology`/`export_bmesh_topology` is caught by `export_mesh`
and turned into `None`; on import, any exception from
`reconstruct_bmesh_topology` is caught by `import_primitive` and turned
into `None`; and on success each wrapper returns the inner result, so the
surrounding document-level operation always proceeds primitive by
primitive. -/
theorem claim_C8_per_primitive_isolation :
    (∀ (st : GState) (mesh : BMesh) (e : PyErr),
      export_bmesh_topology st (analyze_mesh_topology mesh) = .error e →
      export_mesh st mesh = none) ∧
    (∀ (ctx : GltfCtx) (ext : ExtBlock) (e : PyErr),
      reconstruct_bmesh_topology ctx ext = .error e →
      import_primitive ctx (some ext) = none) ∧
    (∀ (st : GState) (mesh : BMesh) (r : GState × ExtBlock),
      export_bmesh_topology st (analyze_mesh_topology mesh) = .ok r →
      export_mesh st mesh = some r.2) ∧
    (∀ (ctx : GltfCtx) (ext : ExtBlock) (bm : IBmesh),
      extIsEmpty ext = false →
      reconstruct_bmesh_topology ctx ext = .ok bm →
      import_primitive ctx (some ext) = some (buildMeshData bm)) := by
  refine ⟨?_, ?_, ?_, ?_⟩
  · intro st mesh e h
    simp [export_mesh, h]
  · intro ctx ext e h
    by_cases he : extIsEmpty ext = true <;> simp [import_primitive, h, he]
  · intro st mesh r h
    simp [export_mesh, h]
  · intro ctx ext bm he h
    simp [import_primitive, h, he]

/-- Witness for `claim_C8_per_primitive_isolation`: the triangle whose
encode raises `struct.error` exports as `None`; a primitive whose
positions accessor index 99 addresses no accessor imports as `None`; a
well-formed single-face decode imports as its mesh data. -/
theorem witness_C8_per_primitive_isolation :
    export_mesh emptyState triMesh = none ∧
    import_primitive ⟨[], [], []⟩ (some extC8) = none :=
  ⟨claim_C8_per_primitive_isolation.1 emptyState triMesh .structError rfl,
   claim_C8_per_primitive_isolation.2.1 ⟨[], [], []⟩ extC8
     (.invalidAccessorIndex 99) rfl⟩

/-- Outside the `type_map`, `componentByteSize` is `none`. -/
theorem componentByteSize_eq_none (ct : Nat)
    (h : ct ∉ ([5120, 5121, 5122, 5123, 5125, 5126] : List Nat)) :
    componentByteSize ct = none := by
  simp only [List.mem_cons, List.not_mem_nil, or_false, not_or] at h
  obtain ⟨h1, h2, h3, h4, h5, h6⟩ := h
  simp [componentByteSize, h1, h2, h3, h4, h5, h6]

/-- Inside the `type_map`, `componentByteSize` is `some`. -/
theorem componentByteSize_isSome (ct : Nat)
    (h : ct ∈ ([5120, 5121, 5122, 5123, 5125, 5126] : List Nat)) :
    (componentByteSize ct).isSome = true := by
  simp only [List.mem_cons, List.not_mem_nil, or_false] at h
  rcases h with rfl | rfl | rfl | rfl | rfl | rfl <;> rfl

/-- Outside the recognized shape tags, `accessorTypeComponents` is
`none`. -/
theorem accessorTypeComponents_eq_none (t : String)
    (h : t ∉ (["SCALAR", "VEC2", "VEC3", "VEC4"] : List String)) :
    accessorTypeComponents t = none := by
  simp only [List.mem_cons, List.not_mem_nil, or_false, not_or] at h
  obtain ⟨h1, h2, h3, h4⟩ := h
  simp [accessorTypeComponents, h1, h2, h3, h4]

/-- Inside the recognized shape tags, `accessorTypeComponents` is
`some`. -/
theorem accessorTypeComponents_isSome (t : String)
    (h : t ∈ (["SCALAR", "VEC2", "VEC3", "VEC4"] : List String)) :
    (accessorTypeComponents t).isSome = true := by
  simp only [List.mem_cons, List.not_mem_nil, or_false] at h
  rcases h with rfl | rfl | rfl | rfl <;> rfl

/-- Claim C9: the buffer/accessor reading layer fails exactly on
out-of-bounds indices and unrecognized types.  (i) An accessor index past
the accessor list raises the out-of-range error.  (ii) A buffer-view index
past the view list raises the out-of-range error.  (iii) A view whose
buffer index is past the buffers list raises the out-of-range error.
(iv) With the accessor and its view resolvable, a component type outside
`{5120, 5121, 5122, 5123, 5125, 5126}` raises the unsupported-type error.
(v) Likewise a shape tag outside `{SCALAR, VEC2, VEC3, VEC4}` (with a
recognized component type).  (vi) With in-bounds indices and recognized
types, no out-of-range and no unsupported-type error is raised: the only
possible failure is `struct.error` from running past the packed data. -/
theorem claim_C9_read_layer_errors :
    (∀ (ctx : GltfCtx) (i : Nat), ctx.accessors.length ≤ i →
      read_accessor_data ctx i = .error (.invalidAccessorIndex i)) ∧
    (∀ (ctx : GltfCtx) (i : Nat), ctx.bufferViews.length ≤ i →
      read_buffer_view ctx i = .error (.invalidBufferViewIndex i)) ∧
    (∀ (ctx : GltfCtx) (i : Nat) (bv : BufferView),
      ctx.bufferViews.get? i = some bv → ctx.buffers.length ≤ bv.buffer →
      read_buffer_view ctx i = .error (.invalidBufferIndex bv.buffer)) ∧
    (∀ (ctx : GltfCtx) (i : Nat) (a : Accessor) (bvIdx : Nat) (bv : BufferView),
      ctx.accessors.get? i = some a → a.bufferView = some bvIdx →
      ctx.bufferViews.get? bvIdx = some bv → bv.buffer < ctx.buffers.length →
      a.componentType ∉ ([5120, 5121, 5122, 5123, 5125, 5126] : List Nat) →
      read_accessor_data ctx i
        = .error (.unsupportedComponentType a.componentType)) ∧
    (∀ (ctx : GltfCtx) (i : Nat) (a : Accessor) (bvIdx : Nat) (bv : BufferView),
      ctx.accessors.get? i = some a → a.bufferView = some bvIdx →
      ctx.bufferViews.get? bvIdx = some bv → bv.buffer < ctx.buffers.length →
      a.componentType ∈ ([5120, 5121, 5122, 5123, 5125, 5126] : List Nat) →
      a.type ∉ (["SCALAR", "VEC2", "VEC3", "VEC4"] : List String) →
      read_accessor_data ctx i = .error (.unsupportedAccessorType a.type)) ∧
    (∀ (ctx : GltfCtx) (i : Nat) (a : Accessor) (bvIdx : Nat) (bv : BufferView)
        (e : PyErr),
      ctx.accessors.get? i = some a → a.bufferView = some bvIdx →
      ctx.bufferViews.get? bvIdx = some bv → bv.buffer < ctx.buffers.length →
      a.componentType ∈ ([5120, 5121, 5122, 5123, 5125, 5126] : List Nat) →
      a.type ∈ (["SCALAR", "VEC2", "VEC3", "VEC4"] : List String) →
      read_accessor_data ctx i = .error e → e = .structError) := by
  refine ⟨?_, ?_, ?_, ?_, ?_, ?_⟩
  · intro ctx i h
    rw [read_accessor_data, if_pos h]
  · intro ctx i h
    rw [read_buffer_view, if_pos h]
  · intro ctx i bv hget h
    rw [read_buffer_view]
    rw [if_neg (not_le.mpr (lt_length_of_get? hget))]
    rw [getD_of_get? _ hget]
    rw [if_pos h]
  · intro ctx i a bvIdx bv hget hbv hbvget hbuf hct
    rw [read_accessor_data]
    rw [if_neg (not_le.mpr (lt_length_of_get? hget))]
    rw [getD_of_get? _ hget]
    dsimp only
    rw [hbv]
    dsimp only
    rw [read_buffer_view_ok ctx bvIdx bv hbvget hbuf, exceptBind_ok]
    rw [componentByteSize_eq_none a.componentType hct]
  · intro ctx i a bvIdx bv hget hbv hbvget hbuf hct hat
    rw [read_accessor_data]
    rw [if_neg (not_le.mpr (lt_length_of_get? hget))]
    rw [getD_of_get? _ hget]
    dsimp only
    rw [hbv]
    dsimp only
    rw [read_buffer_view_ok ctx bvIdx bv hbvget hbuf, exceptBind_ok]
    obtain ⟨bs, hbs⟩ := Option.isSome_iff_exists.mp (componentByteSize_isSome _ hct)
    rw [hbs]
    rw [accessorTypeComponents_eq_none a.type hat]
  · intro ctx i a bvIdx bv e hget hbv hbvget hbuf hct hat h
    rw [read_accessor_data] at h
    rw [if_neg (not_le.mpr (lt_length_of_get? hget))] at h
    rw [getD_of_get? _ hget] at h
    dsimp only at h
    rw [hbv] at h
    dsimp only at h
    rw [read_buffer_view_ok ctx bvIdx bv hbvget hbuf, exceptBind_ok] at h
    obtain ⟨bs, hbs⟩ := Option.isSome_iff_exists.mp (componentByteSize_isSome _ hct)
    rw [hbs] at h
    obtain ⟨comps, hcomps⟩ :=
      Option.isSome_iff_exists.mp (accessorTypeComponents_isSome _ hat)
    rw [hcomps] at h
    rcases exceptBind_eq_error _ _ _ h with h1 | ⟨vs, _, h1⟩
    · exact readElements_error _ _ _ _ _ _ _ h1
    · cases h1

/-- Witness for `claim_C9_read_layer_errors`: each error condition fired
at the concrete arena `stC9`. -/
theorem witness_C9_read_layer_errors :
    read_accessor_data (ctxOfState stC9) 9 = .error (.invalidAccessorIndex 9) ∧
    read_buffer_view (ctxOfState stC9) 3 = .error (.invalidBufferViewIndex 3) ∧
    read_buffer_view ⟨[⟨5, 0, 4⟩], [], []⟩ 0 = .error (.invalidBufferIndex 5) ∧
    read_accessor_data (ctxOfState stC9) 0 = .error (.unsupportedComponentType 9999) ∧
    read_accessor_data (ctxOfState stC9) 1 = .error (.unsupportedAccessorType "MAT4") ∧
    PyErr.structError = PyErr.structError :=
  ⟨claim_C9_read_layer_errors.1 (ctxOfState stC9) 9 (by decide),
   claim_C9_read_layer_errors.2.1 (ctxOfState stC9) 3 (by decide),
   claim_C9_read_layer_errors.2.2.1 ⟨[⟨5, 0, 4⟩], [], []⟩ 0 ⟨5, 0, 4⟩ rfl (by decide),
   claim_C9_read_layer_errors.2.2.2.1 (ctxOfState stC9) 0
     { bufferView := some 0, componentType := 9999, count := 1, type := "SCALAR" }
     0 ⟨0, 0, 4⟩ rfl rfl rfl (by decide) (by decide),
   claim_C9_read_layer_errors.2.2.2.2.1 (ctxOfState stC9) 1
     { bufferView := some 0, componentType := 5125, count := 1, type := "MAT4" }
     0 ⟨0, 0, 4⟩ rfl rfl rfl (by decide) (by decide) (by decide),
   claim_C9_read_layer_errors.2.2.2.2.2 (ctxOfState stC9) 3
     { bufferView := some 0, componentType := 5125, count := 5, type := "SCALAR" }
     0 ⟨0, 0, 4⟩ .structError rfl rfl rfl (by decide) (by decide) (by decide) rfl⟩

/-- Witness for `claim_C10_sparse_read_safety`: the concrete read
`[9, 9]` has the declared count 2, and the override `(index 5, count 1)`
leaves `[3]` unchanged. -/
theorem witness_C10_sparse_read_safety :
    ([PVal.int 9, PVal.int 9] : List PVal).length = aC10.count ∧
    applyOneOverride 1 [] 0 (PVal.int 5) [PVal.int 3] = .ok [PVal.int 3] :=
  ⟨claim_C10_sparse_read_safety.1 (ctxOfState stC10) 0 aC10
      [PVal.int 9, PVal.int 9] rfl rfl,
   claim_C10_sparse_read_safety.2 1 [] 0 5 [PVal.int 3] (by decide)⟩

/-- The ids of the extracted loop records are consecutive from `base`. -/
theorem loopsOfPolys_map_id (ml : List BLoop) :
    ∀ (ps : List BPolygon) (fidx base : Nat),
      (loopsOfPolys ml ps fidx base).map (·.id)
        = List.range' base ((ps.map (·.loop_total)).sum) := by
  intro ps
  induction ps with
  | nil => intro fidx base; simp [loopsOfPolys]
  | cons p rest ih =>
      intro fidx base
      rw [loopsOfPolys, List.map_append, ih]
      have h1 : (faceLoopRecs ml p fidx base).map (·.id)
          = List.range' base p.loop_total := by
        rw [faceLoopRecs, List.map_map, List.range'_eq_map_range]
        rfl
      rw [h1]
      have h2 := List.range'_append base p.loop_total
        ((rest.map (·.loop_total)).sum) 1
      simp only [List.map_cons, List.sum_cons, Nat.one_mul] at h2 ⊢
      rw [h2, Nat.add_comm]

/-- In a list whose mapped ids are `0, 1, 2, ...`, the record at position
`j` has id `j`. -/
theorem map_id_get {l : List LoopRec}
    (hl : l.map (·.id) = List.range' 0 l.length)
    (j : Nat) (hj : j < l.length) : (l.get ⟨j, hj⟩).id = j := by
  have h1 : (l.map (·.id)).get? j = some (l.get ⟨j, hj⟩).id := by
    rw [List.get?_map, List.get?_eq_get hj]
    rfl
  rw [hl] at h1
  have h2 : (List.range' 0 l.length).get? j = some j := by
    rw [List.get?_eq_get (by simpa using hj)]
    simp [List.get_range']
  rw [h2] at h1
  exact (Option.some_injective _ h1).symm

/-- Helper: `getD` at an in-bounds index is `get`. -/
theorem getD_eq_get {α : Type} (l : List α) (j : Nat) (h : j < l.length)
    (d : α) : l.getD j d = l.get ⟨j, h⟩ := by
  simp [List.getD, List.getElem?_eq_getElem, h]

/-- A member of an id-indexed loop list is its own id's entry. -/
theorem get_of_mem_id_indexed {l : List LoopRec}
    (hl : l.map (·.id) = List.range' 0 l.length) {x : LoopRec}
    (hx : x ∈ l) : ∃ h : x.id < l.length, l.get ⟨x.id, h⟩ = x := by
  obtain ⟨⟨n, hn⟩, hget⟩ := List.mem_iff_get.mp hx
  have : x.id = n := by rw [← hget]; exact map_id_get hl n hn
  exact ⟨by rw [this]; exact hn, by
    have : (⟨x.id, by rw [this]; exact hn⟩ : Fin l.length) = ⟨n, hn⟩ := by
      exact Fin.ext this
    rw [this, hget]⟩

/-- The loop list of `analyze_mesh_topology` is the radialized extracted
list. -/
theorem analyze_loops_eq (mesh : BMesh) :
    (analyze_mesh_topology mesh).loops
      = (analyzedLoops mesh).map (radialize (analyzedLoops mesh)) := by
  rw [analyze_mesh_topology, calculate_radial_loops, extract_subdivision_data,
    build_adjacency]
  dsimp only
  split <;> rfl

/-- The edge list of `analyze_mesh_topology`: the enumerated mesh edges
with adjacency faces filled in. -/
theorem analyze_edges_eq (mesh : BMesh) :
    (analyze_mesh_topology mesh).edges
      = (mkEdges mesh.edges).map (fun e =>
          { e with
            faces := facesForEdge (facesOfPolys mesh.loops mesh.polygons 0 0)
              (mkEdges mesh.edges) e.id }) := by
  rw [analyze_mesh_topology, calculate_radial_loops, extract_subdivision_data,
    build_adjacency]
  dsimp only
  split <;> rfl

/-- The radial cycle of an id-indexed loop list has no duplicate ids. -/
theorem cycleOf_nodup {l : List LoopRec}
    (hl : l.map (·.id) = List.range' 0 l.length) (e : Nat) :
    (cycleOf l e).Nodup := by
  have hsub : List.Sublist (cycleOf l e) (l.map (·.id)) :=
    List.Sublist.map _ (List.filter_sublist l)
  rw [hl] at hsub
  exact List.Nodup.sublist hsub (List.nodup_range' _ _)

/-- Membership in a radial cycle: exactly the ids of the loops carrying
that edge. -/
theorem mem_cycleOf {l : List LoopRec} {e j : Nat} :
    j ∈ cycleOf l e ↔ ∃ x, x ∈ l ∧ x.edge = e ∧ x.id = j := by
  simp only [cycleOf, List.mem_map, List.mem_filter, decide_eq_true_eq]
  constructor
  · rintro ⟨x, ⟨hx, he⟩, hid⟩
    exact ⟨x, hx, he, hid⟩
  · rintro ⟨x, hx, he, hid⟩
    exact ⟨x, ⟨hx, he⟩, hid⟩

/-- One radial step from cycle position `j` lands on cycle position
`j + 1`. -/
theorem stepRadial_cAt {L0 : List LoopRec}
    (hids : L0.map (·.id) = List.range' 0 L0.length) (e : Nat)
    (hpos : 0 < (cycleOf L0 e).length) (j : Nat) :
    ((L0.map (radialize L0)).getD (cAt (cycleOf L0 e) j) dummyLoopRec).radial_next
      = cAt (cycleOf L0 e) (j + 1) := by
  have hjk : j % (cycleOf L0 e).length < (cycleOf L0 e).length :=
    Nat.mod_lt _ hpos
  have hcat : cAt (cycleOf L0 e) j = (cycleOf L0 e).get ⟨_, hjk⟩ :=
    getD_eq_get _ _ hjk 0
  have hmem : cAt (cycleOf L0 e) j ∈ cycleOf L0 e := by
    rw [hcat]; exact List.get_mem _ _ _
  obtain ⟨l0, hl0, hedge, hid⟩ := mem_cycleOf.mp hmem
  obtain ⟨hlt, hget0⟩ := get_of_mem_id_indexed hids hl0
  have hltm : cAt (cycleOf L0 e) j < (L0.map (radialize L0)).length := by
    rw [List.length_map]; rw [← hid]; exact hlt
  rw [getD_eq_get _ _ hltm dummyLoopRec]
  have hmap : (L0.map (radialize L0)).get ⟨cAt (cycleOf L0 e) j, hltm⟩
      = radialize L0 (L0.get ⟨cAt (cycleOf L0 e) j, by
          have := hltm; rwa [List.length_map] at this⟩) := by
    simp [List.get_map]
  rw [hmap]
  have hgl : L0.get ⟨cAt (cycleOf L0 e) j, by
      have := hltm; rwa [List.length_map] at this⟩ = l0 := by
    have hfin : (⟨cAt (cycleOf L0 e) j, by
        have := hltm; rwa [List.length_map] at this⟩ : Fin L0.length)
        = ⟨l0.id, hlt⟩ := Fin.ext hid.symm
    rw [hfin, hget0]
  rw [hgl, radialize]
  dsimp only
  rw [hedge]
  have hidx : (cycleOf L0 e).indexOf l0.id = j % (cycleOf L0 e).length := by
    have := List.get_indexOf (cycleOf_nodup hids e)
      (⟨j % (cycleOf L0 e).length, hjk⟩ : Fin (cycleOf L0 e).length)
    rw [← hcat] at this
    rw [hid]
    exact this
  rw [hidx]
  rw [Nat.mod_add_mod]
  have hbound : (j + 1) % (cycleOf L0 e).length < (cycleOf L0 e).length :=
    Nat.mod_lt _ hpos
  rw [getD_eq_get _ _ hbound l0.id, cAt, getD_eq_get _ _ hbound 0]

/-- Helper: `m` radial steps from cycle position `j` land on cycle position
`j + m`. -/
theorem iterate_stepRadial_cAt {L0 : List LoopRec}
    (hids : L0.map (·.id) = List.range' 0 L0.length) (e : Nat)
    (hpos : 0 < (cycleOf L0 e).length) :
    ∀ (m j : Nat),
      Nat.iterate
          (fun i => ((L0.map (radialize L0)).getD i dummyLoopRec).radial_next)
          m (cAt (cycleOf L0 e) j)
        = cAt (cycleOf L0 e) (j + m) := by
  intro m
  induction m with
  | zero => intro j; rfl
  | succ m ih =>
      intro j
      rw [Function.iterate_succ_apply]
      rw [stepRadial_cAt hids e hpos j]
      rw [ih (j + 1)]
      congr 1
      omega

/-- The extracted loops carrying edge `i` are counted polygon by
polygon. -/
theorem count_loops_eq (ml : List BLoop) (i : Nat) :
    ∀ (ps : List BPolygon) (fidx base : Nat),
      ((loopsOfPolys ml ps fidx base).filter (fun l2 => l2.edge = i)).length
        = (ps.map (polyLoopCount ml i)).sum := by
  intro ps
  induction ps with
  | nil => intro fidx base; simp [loopsOfPolys]
  | cons p rest ih =>
      intro fidx base
      rw [loopsOfPolys, List.filter_append, List.length_append,
        ih (fidx + 1) (base + p.loop_total)]
      congr 1
      rw [polyLoopCount, ← List.countP_eq_length_filter,
        ← List.countP_eq_length_filter]
      rw [faceLoopRecs, List.countP_map]
      rfl

/-- The adjacency faces of edge `i` are counted polygon by polygon. -/
theorem count_faces_eq (ml : List BLoop) (E : List EdgeRec) (i : Nat) :
    ∀ (ps : List BPolygon) (fidx base : Nat),
      (facesForEdge (facesOfPolys ml ps fidx base) E i).length
        = (ps.map (polyKeyCount E i)).sum := by
  intro ps
  induction ps with
  | nil => intro fidx base; simp [facesOfPolys, facesForEdge]
  | cons p rest ih =>
      intro fidx base
      rw [facesOfPolys, facesForEdge, List.flatMap_cons, List.length_append]
      rw [show (facesOfPolys ml rest (fidx + 1) (base + p.loop_total)).flatMap
          (fun f => (f.edges.filter
            (fun key => edgeMapLookup E key = some i)).map (fun _ => f.id))
          = facesForEdge (facesOfPolys ml rest (fidx + 1) (base + p.loop_total))
              E i from rfl]
      rw [ih (fidx + 1) (base + p.loop_total)]
      congr 1
      rw [List.length_map]
      rfl

/-- Transfer a count over a list to a count over its index range. -/
theorem countP_eq_countP_range {α : Type} :
    ∀ (l : List α) (P : α → Bool) (Q : Nat → Bool),
      (∀ (j : Nat) (h : j < l.length), P (l.get ⟨j, h⟩) = Q j) →
      l.countP P = (List.range l.length).countP Q := by
  intro l
  induction l with
  | nil => intro P Q _; rfl
  | cons a t ih =>
      intro P Q hpt
      rw [List.countP_cons, List.length_cons, List.range_succ_eq_map,
        List.countP_cons, List.countP_map]
      rw [ih P (Q ∘ Nat.succ) (fun j h => hpt (j + 1) (Nat.succ_lt_succ h))]
      have h0 := hpt 0 (Nat.succ_pos _)
      simp only [List.get] at h0
      rw [h0]

/-- With distinct keys, the edge map resolves a key to exactly the edge
record carrying it. -/
theorem edgeMapLookup_eq_some {E : List EdgeRec}
    (hnodup : (E.map edgeKeyOf).Nodup) (key : Nat × Nat) (i : Nat) :
    edgeMapLookup E key = some i ↔ ∃ e, e ∈ E ∧ edgeKeyOf e = key ∧ e.id = i := by
  induction E with
  | nil => simp [edgeMapLookup]
  | cons e t ih =>
      rw [List.map_cons, List.nodup_cons] at hnodup
      obtain ⟨hne, hnt⟩ := hnodup
      by_cases hk : edgeKeyOf e = key
      · have hft : t.filter (fun e2 => edgeKeyOf e2 = key) = [] := by
          rw [List.eq_nil_iff_forall_not_mem]
          intro x hx
          rw [List.mem_filter, decide_eq_true_eq] at hx
          exact hne (by rw [← hk] at hx; exact hx.2 ▸ List.mem_map_of_mem _ hx.1)
        rw [edgeMapLookup, List.filter_cons_of_pos (by simpa using hk), hft]
        simp only [List.map_cons, List.map_nil, List.getLast?_singleton,
          Option.some_inj]
        constructor
        · intro h; exact ⟨e, List.mem_cons_self e t, hk, h⟩
        · rintro ⟨e2, he2, hk2, hi2⟩
          rcases List.mem_cons.mp he2 with rfl | he2t
          · exact hi2
          · have hmem : e2 ∈ t.filter (fun e3 => edgeKeyOf e3 = key) := by
              rw [List.mem_filter, decide_eq_true_eq]
              exact ⟨he2t, hk2⟩
            rw [hft] at hmem
            exact absurd hmem (List.not_mem_nil e2)
      · rw [edgeMapLookup, List.filter_cons_of_neg (by simpa using hk)]
        rw [show ((t.filter (fun e2 => edgeKeyOf e2 = key)).map (·.id)).getLast?
            = edgeMapLookup t key from rfl]
        rw [ih hnt]
        constructor
        · rintro ⟨e2, he2, hk2, hi2⟩
          exact ⟨e2, List.mem_cons_of_mem e he2, hk2, hi2⟩
        · rintro ⟨e2, he2, hk2, hi2⟩
          rcases List.mem_cons.mp he2 with rfl | he2t
          · exact absurd hk2 hk
          · exact ⟨e2, he2t, hk2, hi2⟩

/-- With distinct keys, equal keys at two positions force equal
positions. -/
theorem edgeKey_get_inj {E : List EdgeRec}
    (hnodup : (E.map edgeKeyOf).Nodup) (i1 i2 : Nat)
    (h1 : i1 < E.length) (h2 : i2 < E.length)
    (heq : edgeKeyOf (E.get ⟨i1, h1⟩) = edgeKeyOf (E.get ⟨i2, h2⟩)) :
    i1 = i2 := by
  have hm1 : (E.map edgeKeyOf).get ⟨i1, by simpa using h1⟩
      = edgeKeyOf (E.get ⟨i1, h1⟩) := by simp [List.get_map]
  have hm2 : (E.map edgeKeyOf).get ⟨i2, by simpa using h2⟩
      = edgeKeyOf (E.get ⟨i2, h2⟩) := by simp [List.get_map]
  have := (List.Nodup.get_inj_iff hnodup).mp
    (show (E.map edgeKeyOf).get ⟨i1, by simpa using h1⟩
        = (E.map edgeKeyOf).get ⟨i2, by simpa using h2⟩ by
      rw [hm1, hm2]; exact heq)
  exact congrArg Fin.val this

/-- Helper: `mkEdges` keeps the list length. -/
theorem mkEdges_length (es : List BEdge) : (mkEdges es).length = es.length := by
  simp [mkEdges]

/-- The enumerated edge record at position `i`. -/
theorem mkEdges_get (es : List BEdge) (i : Nat) (h : i < (mkEdges es).length) :
    (mkEdges es).get ⟨i, h⟩
      = ⟨i, (es.get ⟨i, by rw [mkEdges_length] at h; exact h⟩).v1,
          (es.get ⟨i, by rw [mkEdges_length] at h; exact h⟩).v2, []⟩ := by
  simp only [mkEdges, List.get_map, List.get_enum]
  rfl

/-- The keys of the enumerated edge records are the mesh edges' sorted
vertex pairs. -/
theorem mkEdges_map_key (es : List BEdge) :
    (mkEdges es).map edgeKeyOf = es.map fun e => sortPair e.v1 e.v2 := by
  rw [mkEdges, List.map_map]
  have : (edgeKeyOf ∘ fun ie : Nat × BEdge => (⟨ie.1, ie.2.v1, ie.2.v2, []⟩ : EdgeRec))
      = (fun e => sortPair e.v1 e.v2) ∘ Prod.snd := rfl
  rw [this, ← List.map_map, List.enum_map_snd]

/-- Under the Blender invariants, a polygon's `edge_keys` entries
resolving to edge `i` correspond one-to-one with its loops carrying edge
`i`. -/
theorem perPoly_counts (mesh : BMesh) (hkeys : KeysOk mesh)
    (hnodup : EdgeKeysNodup mesh) (i : Nat) (hi : i < mesh.edges.length)
    (p : BPolygon) (hp : p ∈ mesh.polygons) :
    polyKeyCount (mkEdges mesh.edges) i p = polyLoopCount mesh.loops i p := by
  obtain ⟨hlen, hj⟩ := hkeys p hp
  have hNE : ((mkEdges mesh.edges).map edgeKeyOf).Nodup := by
    rw [mkEdges_map_key]; exact hnodup
  have hiE : i < (mkEdges mesh.edges).length := by rw [mkEdges_length]; exact hi
  rw [polyKeyCount, polyLoopCount]
  rw [← List.countP_eq_length_filter, ← List.countP_eq_length_filter]
  rw [countP_eq_countP_range p.edge_keys _
    (fun j => decide ((mesh.loops.getD (p.loop_start + j) dummyBLoop).edge_index = i))
    ?pointwise, hlen]
  case pointwise =>
    intro j hjlt
    have hjr : j ∈ List.range p.loop_total := by
      rw [List.mem_range, ← hlen]; exact hjlt
    obtain ⟨heilt, hkeyeq⟩ := hj j hjr
    set ei := (mesh.loops.getD (p.loop_start + j) dummyBLoop).edge_index with hei
    have heiE : ei < (mkEdges mesh.edges).length := by
      rw [mkEdges_length]; exact heilt
    have hkeyei : edgeKeyOf ((mkEdges mesh.edges).get ⟨ei, heiE⟩)
        = p.edge_keys.get ⟨j, hjlt⟩ := by
      rw [mkEdges_get, edgeKeyOf]
      dsimp only
      rw [← getD_eq_get p.edge_keys j hjlt (0, 0), ← hkeyeq]
      rw [getD_eq_get mesh.edges ei heilt ⟨0, 0, 0⟩]
    rw [decide_eq_decide]
    rw [edgeMapLookup_eq_some hNE]
    constructor
    · rintro ⟨e2, he2, hk2, hi2⟩
      obtain ⟨⟨n, hn⟩, hgn⟩ := List.mem_iff_get.mp he2
      have hid : e2.id = n := by rw [← hgn, mkEdges_get]
      have hnei : n = ei := by
        apply edgeKey_get_inj hNE n ei hn heiE
        rw [hgn, hk2, hkeyei]
      have hgoal : ei = i := by rw [← hnei, ← hid]; exact hi2
      exact hgoal
    · intro hei_eq
      have hei2 : ei = i := hei_eq
      refine ⟨(mkEdges mesh.edges).get ⟨i, hiE⟩, List.get_mem _ _ _, ?_, ?_⟩
      · have hfin : (⟨i, hiE⟩ : Fin (mkEdges mesh.edges).length) = ⟨ei, heiE⟩ :=
          Fin.ext hei2.symm
        rw [hfin, hkeyei]
      · rw [mkEdges_get]

/-- The length of an edge's radial cycle equals the length of its
adjacency face list. -/
theorem cycle_length_eq_faces (mesh : BMesh) (hkeys : KeysOk mesh)
    (hnodup : EdgeKeysNodup mesh) (i : Nat) (hi : i < mesh.edges.length) :
    (cycleOf (analyzedLoops mesh) i).length
      = (facesForEdge (facesOfPolys mesh.loops mesh.polygons 0 0)
          (mkEdges mesh.edges) i).length := by
  rw [cycleOf, List.length_map, analyzedLoops]
  rw [count_loops_eq mesh.loops i mesh.polygons 0 0]
  rw [count_faces_eq mesh.loops (mkEdges mesh.edges) i mesh.polygons 0 0]
  congr 1
  apply List.map_congr_left
  intro p hp
  exact (perPoly_counts mesh hkeys hnodup i hi p hp).symm

/-- Claim C2 (radial cycle closure; the radial computation is modelled
from the spec because `_calculate_radial_loops` is absent from the
provided sources): in the extracted topology of a well-formed mesh
(`KeysOk`, `EdgeKeysNodup`), for every edge record `e` and every loop `l`
whose `edge` field is `e`'s id, following `radial_next` exactly
`e.faces.length` times returns to `l`, no positive smaller step count
does, and for a boundary edge (one incident face) `l`'s `radial_next` and
`radial_prev` are self-referential. -/
theorem claim_C2_radial_cycle_closure (mesh : BMesh)
    (hkeys : KeysOk mesh) (hnodup : EdgeKeysNodup mesh) :
    ∀ e ∈ (analyze_mesh_topology mesh).edges,
    ∀ l ∈ (analyze_mesh_topology mesh).loops,
      l.edge = e.id →
      (Nat.iterate (stepRadial (analyze_mesh_topology mesh))
          e.faces.length l.id = l.id) ∧
      (∀ m : Nat, 0 < m → m < e.faces.length →
        Nat.iterate (stepRadial (analyze_mesh_topology mesh)) m l.id ≠ l.id) ∧
      (e.faces.length = 1 → l.radial_next = l.id ∧ l.radial_prev = l.id) := by
  intro e he l hl hle
  have hsum := loopsOfPolys_map_id mesh.loops mesh.polygons 0 0
  have hlenL : (analyzedLoops mesh).length
      = (mesh.polygons.map (·.loop_total)).sum := by
    have hc := congrArg List.length hsum
    rw [List.length_map, List.length_range'] at hc
    exact hc
  have hids : (analyzedLoops mesh).map (·.id)
      = List.range' 0 (analyzedLoops mesh).length := by
    rw [hlenL, analyzedLoops, hsum]
  rw [analyze_edges_eq] at he
  obtain ⟨e0, he0, rfl⟩ := List.mem_map.mp he
  obtain ⟨⟨n, hn⟩, hgn⟩ := List.mem_iff_get.mp he0
  have hid0 : e0.id = n := by rw [← hgn, mkEdges_get]
  have hnM : n < mesh.edges.length := by rw [← mkEdges_length]; exact hn
  rw [analyze_loops_eq] at hl
  obtain ⟨l0, hl0, rfl⟩ := List.mem_map.mp hl
  have hid_l : (radialize (analyzedLoops mesh) l0).id = l0.id := rfl
  have hle0 : l0.edge = n := by
    have h1 : l0.edge = e0.id := hle
    rw [h1, hid0]
  have hmemc : l0.id ∈ cycleOf (analyzedLoops mesh) n :=
    mem_cycleOf.mpr ⟨l0, hl0, hle0, rfl⟩
  obtain ⟨⟨j, hjlt⟩, hgetj⟩ := List.mem_iff_get.mp hmemc
  have hpos : 0 < (cycleOf (analyzedLoops mesh) n).length :=
    Nat.lt_of_le_of_lt (Nat.zero_le j) hjlt
  have hcat : cAt (cycleOf (analyzedLoops mesh) n) j = l0.id := by
    rw [cAt, Nat.mod_eq_of_lt hjlt, getD_eq_get _ _ hjlt 0, hgetj]
  have hfaces_eq : ({ e0 with
      faces := facesForEdge (facesOfPolys mesh.loops mesh.polygons 0 0)
        (mkEdges mesh.edges) e0.id } : EdgeRec).faces
      = facesForEdge (facesOfPolys mesh.loops mesh.polygons 0 0)
          (mkEdges mesh.edges) n := by
    dsimp only
    rw [hid0]
  have hk : (cycleOf (analyzedLoops mesh) n).length
      = ({ e0 with
          faces := facesForEdge (facesOfPolys mesh.loops mesh.polygons 0 0)
            (mkEdges mesh.edges) e0.id } : EdgeRec).faces.length := by
    rw [hfaces_eq]
    exact cycle_length_eq_faces mesh hkeys hnodup n hnM
  have hstep : stepRadial (analyze_mesh_topology mesh)
      = fun i2 => (((analyzedLoops mesh).map
          (radialize (analyzedLoops mesh))).getD i2 dummyLoopRec).radial_next := by
    funext i2
    rw [stepRadial, analyze_loops_eq]
  refine ⟨?_, ?_, ?_⟩
  · rw [hstep, ← hk, hid_l, ← hcat,
      iterate_stepRadial_cAt hids n hpos _ j, cAt, cAt, Nat.add_mod_right]
  · intro m hm0 hmk hcontra
    rw [← hk] at hmk
    rw [hstep, hid_l, ← hcat, iterate_stepRadial_cAt hids n hpos m j] at hcontra
    have hlt2 : (j + m) % (cycleOf (analyzedLoops mesh) n).length
        < (cycleOf (analyzedLoops mesh) n).length := Nat.mod_lt _ hpos
    rw [hcat] at hcontra
    rw [cAt, getD_eq_get _ _ hlt2 0, ← hgetj] at hcontra
    have hfin := (List.Nodup.get_inj_iff (cycleOf_nodup hids n)).mp hcontra
    have hmod : (j + m) % (cycleOf (analyzedLoops mesh) n).length = j :=
      congrArg Fin.val hfin
    rcases Nat.lt_or_ge (j + m) (cycleOf (analyzedLoops mesh) n).length with
      hlt | hge
    · rw [Nat.mod_eq_of_lt hlt] at hmod
      omega
    · rw [Nat.mod_eq_sub_mod hge, Nat.mod_eq_of_lt (by omega)] at hmod
      omega
  · intro h1
    have hk1 : (cycleOf (analyzedLoops mesh) n).length = 1 := by
      rw [hk]; exact h1
    obtain ⟨a, hc⟩ := List.length_eq_one.mp hk1
    have ha : a = l0.id := by
      have hm2 := hmemc
      rw [hc] at hm2
      exact (List.mem_singleton.mp hm2).symm
    subst ha
    constructor
    · show (radialize (analyzedLoops mesh) l0).radial_next
        = (radialize (analyzedLoops mesh) l0).id
      rw [hid_l, radialize]
      dsimp only
      rw [hle0, hc]
      simp [Nat.mod_one]
    · show (radialize (analyzedLoops mesh) l0).radial_prev
        = (radialize (analyzedLoops mesh) l0).id
      rw [hid_l, radialize]
      dsimp only
      rw [hle0, hc]
      simp [Nat.mod_one]

/-- Witness for `claim_C2_radial_cycle_closure`: on the two-triangle mesh,
following `radial_next` from the shared edge's loop returns after exactly
2 steps and not after 1, and the boundary edge's loop is radially
self-referential. -/
theorem witness_C2_radial_cycle_closure :
    (Nat.iterate (stepRadial (analyze_mesh_topology twoTriMesh))
      eC2.faces.length lC2.id = lC2.id) ∧
    (Nat.iterate (stepRadial (analyze_mesh_topology twoTriMesh)) 1 lC2.id
      ≠ lC2.id) ∧
    (lC2b.radial_next = lC2b.id ∧ lC2b.radial_prev = lC2b.id) := by
  have hmain := claim_C2_radial_cycle_closure twoTriMesh (by decide) (by decide)
  have h1 := hmain eC2 (by decide) lC2 (by decide) (by decide)
  have h2 := hmain eC2b (by decide) lC2b (by decide) (by decide)
  exact ⟨h1.1, h1.2.1 1 (by decide) (by decide), h2.2.2 (by decide)⟩

/-- Witness for `claim_C6_amended`: at a concrete arena whose section
decoded to vertex-values `[7, 8]` and next-values `[4, 4]`, removing
`topology_vertex` re-decodes with `vertex` reset to 0, removing
`topology_next` re-decodes with `next` equal to each loop's own index and
the section's declared count, and the all-keys-absent section of count 2
decodes to the pure-default records. -/
theorem witness_C6_amended :
    reconstructLoops (ctxOfState stC6) { ldC6 with topology_vertex := none }
      = .ok [⟨0, 0, 0, 0, 4, 0, 0, 0⟩, ⟨1, 0, 0, 0, 4, 1, 1, 1⟩] ∧
    reconstructLoops (ctxOfState stC6) { ldC6 with topology_next := none }
      = .ok [⟨0, 7, 0, 0, 0, 0, 0, 0⟩, ⟨1, 8, 0, 0, 1, 1, 1, 1⟩] ∧
    ([⟨0, 7, 0, 0, 0, 0, 0, 0⟩, ⟨1, 8, 0, 0, 1, 1, 1, 1⟩] : List ILoop).length
      = ldC6.count ∧
    reconstructLoops (ctxOfState stC6)
        ⟨2, none, none, none, none, none, none, none⟩
      = .ok [⟨0, 0, 0, 0, 0, 0, 0, 0⟩, ⟨1, 0, 0, 0, 1, 1, 1, 1⟩] := by
  have hfull : reconstructLoops (ctxOfState stC6) ldC6
      = .ok [⟨0, 7, 0, 0, 4, 0, 0, 0⟩, ⟨1, 8, 0, 0, 4, 1, 1, 1⟩] := rfl
  have h3 := claim_C6_amended.2.2 (ctxOfState stC6) ldC6 _ hfull
  have h2 := claim_C6_amended.2.1 (ctxOfState stC6)
    { ldC6 with topology_next := none } _ h3.2.2.2.1
  exact ⟨h3.1, h3.2.2.2.1, h2.1, claim_C6_amended.1 (ctxOfState stC6) 2⟩

/-- Claim C5 (code bug): the decoder's "no offsets" fallback is attached
to the wrong construct.  The `else:` at importer line 312 is a `for`/`else`
on the reconstruction loop (which never `break`s), not the `else` of
`if "offsets" in faces_data`.  A faces section with `count = 1` and no
`offsets` key therefore produces zero faces instead of one empty face, and
a faces section with `count = 1` and valid offsets produces two faces (the
sliced face followed by a spurious empty one) instead of exactly one. -/
theorem claim_C5_faces_decode_code_bug :
    Except.map (fun b => b.faces.length)
        (reconstruct_bmesh_topology ⟨[], [], []⟩ extFacesNoOffsets) = .ok 0 ∧
    Except.map (fun b => b.faces.map (·.vertices))
        (reconstruct_bmesh_topology (ctxOfState stFacesWithOffsets)
          extFacesWithOffsets)
      = .ok [[0, 1, 2], []] := ⟨rfl, rfl⟩

end ExtMeshBmesh

